import Mathlib

/-!
Verification of the Figma-to-HTML/CSS converter (`src/main.py`).

This file shallowly embeds the converter's data model and operations in
Lean 4 and proves (or refutes) the frozen claims about its specification.

Modelling conventions:
* JSON numbers are modelled as `ℚ` (the numeric values the claims mention
  are exact in both binary floating point and `ℚ`).
* A Python dict of CSS properties is modelled as an insertion-ordered
  association list `List (String × α)`; assignment overwrites in place and
  appends new keys at the end, exactly like a Python dict.
* CSS value strings are modelled structurally by the inductive `CssVal`;
  each constructor records the data the source interpolates into the
  corresponding f-string (for example `CssVal.px q` stands for the string
  "<q>px", and `CssVal.fontFamily f` for the quoted family plus the
  ", sans-serif" fallback).
* Optional JSON keys become `Option` fields; `node.get(k, default)`
  becomes `Option.getD`.
-/

/-! ## Association lists modelling Python dicts -/

/-- Python dict assignment `d[k] = v`: overwrite in place if the key
exists, otherwise append at the end (insertion order preserved). -/
def alSet {α : Type} (d : List (String × α)) (k : String) (v : α) :
    List (String × α) :=
  if d.any (fun p => p.1 = k) then
    d.map (fun p => if p.1 = k then (k, v) else p)
  else d ++ [(k, v)]

/-- Python `d.get(k)` / `k in d` combined: the value at a key, if any. -/
def alGet {α : Type} (d : List (String × α)) (k : String) : Option α :=
  (d.find? (fun p => p.1 = k)).map (fun p => p.2)

/-- Python `d.update(e)`: set every key of `e` into `d`, in `e`'s order. -/
def alUpdate {α : Type} (d e : List (String × α)) : List (String × α) :=
  e.foldl (fun acc p => alSet acc p.1 p.2) d

/-- Python `del d[k]`. -/
def alRemove {α : Type} (d : List (String × α)) (k : String) :
    List (String × α) :=
  d.filter (fun p => p.1 ≠ k)

/-- Python `str.replace(old, new)` for a single-character pattern:
every occurrence of the character is replaced by `rep`. -/
def replaceChar (c : Char) (rep : List Char) : List Char → List Char
  | [] => []
  | a :: rest => (if a = c then rep else [a]) ++ replaceChar c rep rest

/-! ## Colors: `color_to_css` (src/main.py lines 57-72) -/

/-- A Figma color object: a Python dict that may carry `r, g, b, a` keys
(and possibly others, which only affect the dict's truthiness). -/
structure ColorDict where
  r : Option ℚ := none
  g : Option ℚ := none
  b : Option ℚ := none
  a : Option ℚ := none
  /-- whether the dict has keys other than r,g,b,a -/
  extra : Bool := false
  deriving DecidableEq, Repr

/-- The argument passed to `color_to_css`: `None` or any non-dict value
(both fail the `isinstance(color, dict)` test), or a dict. -/
inductive ColorInput where
  | nonDict
  | dict (d : ColorDict)
  deriving DecidableEq, Repr

/-- Python truthiness of the color dict: the empty dict is falsy. -/
def ColorDict.isEmptyDict (d : ColorDict) : Bool :=
  d.r.isNone && d.g.isNone && d.b.isNone && d.a.isNone && !d.extra

/-- Python `int()` on a rational: truncation toward zero. -/
def truncQ (q : ℚ) : ℤ :=
  if 0 ≤ q.num then q.num / (q.den : ℤ) else -((-q.num) / (q.den : ℤ))

/-- The result of `color_to_css`: the string "transparent" or the string
"rgba(r, g, b, a)" with the given channel values interpolated. -/
inductive CssColor where
  | transparent
  | rgba (r g b : ℤ) (a : ℚ)
  deriving DecidableEq, Repr

/-- `color_to_css` (lines 57-72): `None`/non-dict/falsy (empty) dict give
"transparent"; otherwise each channel is `int(channel*255)` clamped to
[0,255] and alpha is clamped to [0,1]. -/
def color_to_css (color : ColorInput) : CssColor :=
  match color with
  | .nonDict => .transparent
  | .dict d =>
    if d.isEmptyDict then .transparent
    else
      let r := truncQ ((d.r.getD 0) * 255)
      let g := truncQ ((d.g.getD 0) * 255)
      let b := truncQ ((d.b.getD 0) * 255)
      let a := d.a.getD 1
      .rgba (max 0 (min 255 r)) (max 0 (min 255 g)) (max 0 (min 255 b))
        (max 0 (min 1 a))

/-! ## Paints and `get_fills` (lines 74-106) -/

/-- A gradient handle position (a dict with `x` and `y`). -/
structure GPoint where
  x : ℚ
  y : ℚ
  deriving DecidableEq, Repr

/-- A gradient stop: `color` and `position` (`stop['color']`,
`stop['position']`). -/
structure GradStop where
  color : ColorInput
  position : ℚ
  deriving DecidableEq, Repr

/-- A Paint object (an entry of `fills`/`strokes`). The source indexes
`fill['type']` and `fill['color']` directly; all inputs considered here
carry those keys, modelled by total fields with inert defaults. -/
structure Paint where
  ptype : String := ""
  visible : Bool := true
  color : ColorInput := ColorInput.nonDict
  opacity : Option ℚ := none
  gradientStops : List GradStop := []
  gradientHandlePositions : List GPoint := []
  deriving DecidableEq, Repr

/-- One box-shadow clause produced by `get_effects`. -/
inductive ShadowClause where
  | drop (ox oy radius spread : ℚ) (c : CssColor)
  | inner (ox oy radius : ℚ) (c : CssColor)
  deriving DecidableEq, Repr

/-- A CSS property value, recording structurally the string the source
would interpolate. `px q` is "<q>px"; `raw s` is the literal `s`;
`px4` is the four-value border-radius shorthand; `gradient` is
"linear-gradient(<angle>deg, <stops>)" whose angle is computed from the
handles by `gradientCssAngle` below and whose stops are
"<rgba> <position*100>%" pairs; `border w c` is "<w>px solid <c>";
`num q` is `str(q)`; `rotateRad r` is "rotate(<degrees(r)>deg)";
`url p` is "url(<p>)" with the path single-quoted;
`fontFamily f` is the quoted family followed by ", sans-serif";
`percent q` is "<q>%". -/
inductive CssVal where
  | px (q : ℚ)
  | px4 (a b c d : ℚ)
  | raw (s : String)
  | color (c : CssColor)
  | gradient (handles : List GPoint) (stops : List (CssColor × ℚ))
  | border (weight : ℚ) (c : CssColor)
  | shadows (cs : List ShadowClause)
  | num (q : ℚ)
  | rotateRad (r : ℚ)
  | url (path : String)
  | fontFamily (f : String)
  | percent (q : ℚ)
  deriving DecidableEq, Repr

/-- Python's `math.atan2` on the reals (signed zeros aside, which do not
exist in `ℝ`). -/
noncomputable def atan2 (y x : ℝ) : ℝ :=
  if 0 < x then Real.arctan (y / x)
  else if x < 0 then
    (if 0 ≤ y then Real.arctan (y / x) + Real.pi
     else Real.arctan (y / x) - Real.pi)
  else if 0 < y then Real.pi / 2
  else if y < 0 then -(Real.pi / 2)
  else 0

/-- Python's `math.degrees`. -/
noncomputable def toDegrees (r : ℝ) : ℝ := r * (180 / Real.pi)

/-- Python's `%` on reals (for a positive modulus): `a - b * floor(a/b)`. -/
noncomputable def pymodR (a b : ℝ) : ℝ := a - b * (⌊a / b⌋ : ℤ)

/-- The CSS gradient angle computed by `get_fills` (lines 86-98) from the
gradient handle positions: `(90 - degrees(atan2(dy, dx))) % 360` from the
first two handles, and `180` when fewer than two handles are present. -/
noncomputable def gradientCssAngle (handles : List GPoint) : ℝ :=
  match handles with
  | h1 :: h2 :: _ =>
    pymodR (90 - toDegrees (atan2 (h2.y - h1.y) (h2.x - h1.x))) 360
  | _ => 180

/-- `get_fills` (lines 74-106): first fill only; absent or invisible
first fill is "transparent"; SOLID uses `color_to_css`; GRADIENT_LINEAR
needs at least two stops, else "transparent"; anything else is
"transparent". The gradient's rendered angle is
`gradientCssAngle handles`; each stop renders as the pair of its rgba
color and `position*100` (the percentage). -/
def get_fills (fills : List Paint) : CssVal :=
  match fills with
  | [] => .color .transparent
  | fill :: _ =>
    if fill.visible = false then .color .transparent
    else if fill.ptype = "SOLID" then .color (color_to_css fill.color)
    else if fill.ptype = "GRADIENT_LINEAR" then
      if 2 ≤ fill.gradientStops.length then
        .gradient fill.gradientHandlePositions
          (fill.gradientStops.map
            (fun s => (color_to_css s.color, s.position * 100)))
      else .color .transparent
    else .color .transparent

/-! ## Class-name sanitizer (lines 175-191) -/

/-- The character class `[a-zA-Z0-9_-]` of the two regexes, stated on
code points. -/
def isAllowed (c : Char) : Bool :=
  (97 ≤ c.toNat && c.toNat ≤ 122) || (65 ≤ c.toNat && c.toNat ≤ 90) ||
  (48 ≤ c.toNat && c.toNat ≤ 57) || c = '_' || c = '-'

/-- `re.sub(r'[^a-zA-Z0-9_-]', '-', name)`: map every disallowed
character to a dash. -/
def subDisallowed (cs : List Char) : List Char :=
  cs.map (fun c => if isAllowed c then c else '-')

/-- `re.sub(r'-+', '-', name)`: collapse every run of dashes to one. -/
def collapseDashes : List Char → List Char
  | [] => []
  | [c] => [c]
  | a :: b :: rest =>
    if a = '-' && b = '-' then collapseDashes (b :: rest)
    else a :: collapseDashes (b :: rest)

/-- Drop trailing dashes (the right half of `str.strip('-')`). -/
def stripTrailingDashes : List Char → List Char
  | [] => []
  | c :: rest =>
    if stripTrailingDashes rest = [] then (if c = '-' then [] else [c])
    else c :: stripTrailingDashes rest

/-- `str.strip('-')`: drop leading and trailing dashes. -/
def stripDashes (cs : List Char) : List Char :=
  stripTrailingDashes (cs.dropWhile (fun c => c = '-'))

/-- Python `str.isalpha()` restricted to ASCII; the sanitizer applies it
only after every non-ASCII character has been replaced by a dash, where
the two functions agree. -/
def pyIsAlpha (c : Char) : Bool :=
  (65 ≤ c.toNat && c.toNat ≤ 90) || (97 ≤ c.toNat && c.toNat ≤ 122)

/-- `sanitize_class_name` (lines 175-191). `Char.toLower` models
`str.lower()` (they agree on the ASCII-only strings present after the
substitution step). -/
def sanitize_class_name (name : String) (node_id : String := "") : String :=
  let name0 := if name = "" then "unnamed" else name
  let n1 := subDisallowed name0.data
  let n2 := collapseDashes n1
  let n3 := stripDashes (n2.map Char.toLower)
  let n4 :=
    if n3 ≠ [] && !(pyIsAlpha (n3.headD ' ')) then 'n' :: '-' :: n3 else n3
  let n5 :=
    if node_id ≠ "" then
      n4 ++ ('-' :: (node_id.data.take 6).filter (fun c => isAllowed c))
    else n4
  if n5 ≠ [] then String.mk n5 else "unnamed"

/-! ## Strokes, effects, typography (lines 108-173) -/

/-- An Effect object (an entry of `effects`). -/
structure FEffect where
  etype : String := ""
  visible : Bool := true
  offset : Option (ℚ × ℚ) := none
  radius : Option ℚ := none
  spread : Option ℚ := none
  color : Option ColorInput := none
  deriving DecidableEq, Repr

/-- The default shadow color dict of lines 131/136. -/
def defaultShadowColor : ColorInput :=
  .dict { r := some 0, g := some 0, b := some 0, a := some (1/4) }

/-- `get_effects` on one effect: DROP_SHADOW and INNER_SHADOW clauses,
invisible and unrecognized effects dropped (lines 123-137). -/
def effectClause (e : FEffect) : Option ShadowClause :=
  if e.visible = false then none
  else if e.etype = "DROP_SHADOW" then
    let off := e.offset.getD (0, 0)
    some (.drop off.1 off.2 (e.radius.getD 0) (e.spread.getD 0)
      (color_to_css (e.color.getD defaultShadowColor)))
  else if e.etype = "INNER_SHADOW" then
    let off := e.offset.getD (0, 0)
    some (.inner off.1 off.2 (e.radius.getD 0)
      (color_to_css (e.color.getD defaultShadowColor)))
  else none

/-- `get_effects` (lines 118-139), order preserved. -/
def get_effects (effects : List FEffect) : List ShadowClause :=
  effects.filterMap effectClause

/-- The `style` dict of a TEXT node. -/
structure TypStyle where
  fontFamily : Option String := none
  fontSize : Option ℚ := none
  fontWeight : Option ℚ := none
  lineHeightPx : Option ℚ := none
  lineHeightPercentFontSize : Option ℚ := none
  letterSpacing : Option ℚ := none
  textAlignHorizontal : Option String := none
  textDecoration : Option String := none
  deriving DecidableEq, Repr

/-- `self.fonts_used.add(font)`: the font set, modelled as a
duplicate-free insertion list. -/
def insertFont (fonts : List String) (f : String) : List String :=
  if fonts.contains f then fonts else fonts ++ [f]

/-- `align_map.get(value, 'left')` of line 166-167. -/
def alignMap (v : String) : String :=
  if v = "LEFT" then "left"
  else if v = "CENTER" then "center"
  else if v = "RIGHT" then "right"
  else if v = "JUSTIFIED" then "justify"
  else "left"

/-- `get_typography` (lines 141-173): the typography CSS entries in
source order, plus the updated font set. -/
def get_typography (style : Option TypStyle) (fonts : List String) :
    List (String × CssVal) × List String :=
  let st := style.getD {}
  let (css, fonts) :=
    match st.fontFamily with
    | some f => ([("font-family", CssVal.fontFamily f)], insertFont fonts f)
    | none => ([], fonts)
  let css := css ++ (match st.fontSize with
    | some q => [("font-size", CssVal.px q)] | none => [])
  let css := css ++ (match st.fontWeight with
    | some q => [("font-weight", CssVal.num q)] | none => [])
  let css := css ++ (match st.lineHeightPx with
    | some q => [("line-height", CssVal.px q)]
    | none => match st.lineHeightPercentFontSize with
      | some q => [("line-height", CssVal.percent q)] | none => [])
  let css := css ++ (match st.letterSpacing with
    | some q => [("letter-spacing", CssVal.px q)] | none => [])
  let css := css ++ (match st.textAlignHorizontal with
    | some v => [("text-align", CssVal.raw (alignMap v))] | none => [])
  let css := css ++ (match st.textDecoration with
    | some v => if v = "UNDERLINE"
        then [("text-decoration", CssVal.raw "underline")] else []
    | none => [])
  (css, fonts)

/-! ## The node tree -/

/-- `absoluteBoundingBox`, each coordinate optional (a missing box is the
empty dict `{}`, i.e. all fields absent). -/
structure BBox where
  x : Option ℚ := none
  y : Option ℚ := none
  width : Option ℚ := none
  height : Option ℚ := none
  deriving DecidableEq, Repr

/-- The non-recursive attributes of a scene node. The source reads
`node['id']` directly at lines 319/395 and via `get` elsewhere; nodes
considered here carry an id whenever those lines run. -/
structure NodeData where
  ntype : String := ""
  name : Option String := none
  id : Option String := none
  visible : Bool := true
  bbox : Option BBox := none
  layoutMode : Option String := none
  counterAxisAlignItems : Option String := none
  primaryAxisAlignItems : Option String := none
  paddingLeft : Option ℚ := none
  paddingRight : Option ℚ := none
  paddingTop : Option ℚ := none
  paddingBottom : Option ℚ := none
  itemSpacing : Option ℚ := none
  rotation : Option ℚ := none
  fills : List Paint := []
  strokes : List Paint := []
  strokeWeight : Option ℚ := none
  effects : List FEffect := []
  cornerRadius : Option ℚ := none
  rectangleCornerRadii : Option (ℚ × ℚ × ℚ × ℚ) := none
  opacity : Option ℚ := none
  clipsContent : Bool := false
  style : Option TypStyle := none
  characters : Option String := none
  deriving DecidableEq, Repr

/-- A scene node: its attributes and its (owned) children. -/
inductive Node where
  | mk (data : NodeData) (children : List Node)

/-- The attributes of a node. -/
def Node.data : Node → NodeData
  | .mk d _ => d

/-- The children of a node. -/
def Node.children : Node → List Node
  | .mk _ cs => cs

/-- `get_strokes` (lines 108-116): color (None when absent/invisible)
and weight (default 1). -/
def get_strokes (node : NodeData) : Option CssColor × ℚ :=
  match node.strokes with
  | [] => (none, 0)
  | s :: _ =>
    if s.visible = false then (none, 0)
    else (some (color_to_css s.color), node.strokeWeight.getD 1)

/-- Converter state mutated during a run (`self.images`,
`self.fonts_used`, `self.root_frame`), plus `root_sets`, a ghost counter
incremented exactly at the one statement that assigns `self.root_frame`
(line 207), recording how many times that assignment ran. -/
structure ConvState where
  images : List (String × String) := []
  fonts_used : List String := []
  root_frame : Option BBox := none
  root_sets : Nat := 0
  deriving DecidableEq, Repr

/-- Python truthiness of `self.root_frame`: `None` is falsy, and so is
the empty bounding-box dict. -/
def rootTruthy : Option BBox → Bool
  | none => false
  | some b => b.x.isSome || b.y.isSome || b.width.isSome || b.height.isSome

/-- Python truthiness of `node.get('layoutMode')`: absent (None) and the
empty string are falsy. -/
def layoutTruthy : Option String → Bool
  | none => false
  | some s => s ≠ ""

/-! ## `node_to_css` (lines 193-271) -/

/-- The conditional assignments of `node_to_css`'s auto-layout block
(lines 216-235), in statement order; applying them sequentially with
`alUpdate` below is exactly the source's sequence of dict assignments. -/
def layoutUpdates (node : NodeData) : List (String × CssVal) :=
  let layout_mode := node.layoutMode
  [("display", CssVal.raw "flex")] ++
  [("flex-direction",
     CssVal.raw (if layout_mode = some "HORIZONTAL" then "row"
                 else "column"))] ++
  (if node.counterAxisAlignItems = some "CENTER"
    then [("align-items", CssVal.raw "center")] else []) ++
  (if node.primaryAxisAlignItems = some "CENTER"
    then [("justify-content", CssVal.raw "center")] else []) ++
  (match node.paddingLeft with
    | some p => [("padding-left", CssVal.px p)] | none => []) ++
  (match node.paddingRight with
    | some p => [("padding-right", CssVal.px p)] | none => []) ++
  (match node.paddingTop with
    | some p => [("padding-top", CssVal.px p)] | none => []) ++
  (match node.paddingBottom with
    | some p => [("padding-bottom", CssVal.px p)] | none => []) ++
  (match node.itemSpacing with
    | some g => if 0 < g then [("gap", CssVal.px g)] else []
    | none => [])

/-- The auto-layout block of `node_to_css` (lines 216-235): flex
properties, conditional centering, the four paddings, and a gap only for
a positive item spacing. -/
def node_to_css_layout (node : NodeData) (css : List (String × CssVal)) :
    List (String × CssVal) :=
  alUpdate css (layoutUpdates node)

/-- The conditional assignments of the trailing, layout-independent part
of `node_to_css` (lines 242-269), in statement order: rotation,
background, border, corner radius, shadows, opacity and overflow. -/
def decorUpdates (node : NodeData) : List (String × CssVal) :=
  (match node.rotation with
    | some r => if r ≠ 0 then [("transform", CssVal.rotateRad r)] else []
    | none => []) ++
  (if node.ntype ≠ "TEXT" then
      let background := get_fills node.fills
      if background ≠ .color .transparent then [("background", background)]
      else []
    else []) ++
  (match (get_strokes node).1 with
    | some c => [("border", CssVal.border (get_strokes node).2 c)]
    | none => []) ++
  (match node.cornerRadius with
    | some cr => [("border-radius", CssVal.px cr)]
    | none => match node.rectangleCornerRadii with
      | some r =>
        [("border-radius", CssVal.px4 r.1 r.2.1 r.2.2.1 r.2.2.2)]
      | none => []) ++
  (let effects := get_effects node.effects
   if effects ≠ [] then [("box-shadow", CssVal.shadows effects)] else []) ++
  (match node.opacity with
    | some o => if o < 1 then [("opacity", CssVal.num o)] else []
    | none => []) ++
  (if node.clipsContent then [("overflow", CssVal.raw "hidden")] else [])

/-- The trailing, layout-independent part of `node_to_css`
(lines 242-269), applied as the source's sequence of dict assignments. -/
def node_to_css_decor (node : NodeData) (css0 : List (String × CssVal)) :
    List (String × CssVal) :=
  alUpdate css0 (decorUpdates node)

/-- The absolute-positioning step of `node_to_css`'s non-root branch
(lines 209-214). -/
def node_to_css_abs (node : NodeData) (parent_has_layout : Bool)
    (st : ConvState) : List (String × CssVal) :=
  let bounds := node.bbox.getD {}
  if ¬parent_has_layout ∧ rootTruthy st.root_frame ∧
      bounds.x.isSome ∧ bounds.y.isSome then
    let rb := st.root_frame.getD {}
    let rel_x := bounds.x.getD 0 - rb.x.getD 0
    let rel_y := bounds.y.getD 0 - rb.y.getD 0
    alSet (alSet (alSet [] "position" (.raw "absolute"))
      "left" (.px rel_x)) "top" (.px rel_y)
  else []

/-- The geometry of `node_to_css`'s non-root branch (lines 208-240):
absolute positioning, the auto-layout block, then width and height from
the bounding box. -/
def node_to_css_nonroot (node : NodeData) (parent_has_layout : Bool)
    (st : ConvState) : List (String × CssVal) :=
  let bounds := node.bbox.getD {}
  let css := node_to_css_abs node parent_has_layout st
  let css :=
    if layoutTruthy node.layoutMode then node_to_css_layout node css else css
  let css := match bounds.width with
    | some w => alSet css "width" (.px w) | none => css
  let css := match bounds.height with
    | some h => alSet css "height" (.px h) | none => css
  css

/-- The geometry of `node_to_css`'s root branch (lines 200-207): width,
height, `position: relative`, `margin: 0 auto`, and the `root_frame`
assignment (with the ghost counter incremented). -/
def node_to_css_root (node : NodeData) (st : ConvState) :
    List (String × CssVal) × ConvState :=
  let bounds := node.bbox.getD {}
  let css : List (String × CssVal) := []
  let css := match bounds.width with
    | some w => alSet css "width" (.px w) | none => css
  let css := match bounds.height with
    | some h => alSet css "height" (.px h) | none => css
  let css := alSet css "position" (.raw "relative")
  let css := alSet css "margin" (.raw "0 auto")
  (css, { st with root_frame := some bounds,
                  root_sets := st.root_sets + 1 })

/-- `node_to_css` (lines 193-271): the CSS property dict for a node,
plus the updated state (whose `root_frame` this function assigns when
`is_root`). The `class_name` parameter is accepted and unused, as in the
source. On the non-root path the source reads
`self.root_frame['x']`/`['y']` directly after the truthiness test; a
recorded root frame is read back here with default 0, which agrees with
the source whenever the recorded box has both coordinates (it always
does in the claims). -/
def node_to_css (node : NodeData) (class_name : String)
    (is_root parent_has_layout : Bool) (st : ConvState) :
    List (String × CssVal) × ConvState :=
  let cssst :=
    if is_root then node_to_css_root node st
    else (node_to_css_nonroot node parent_has_layout st, st)
  (node_to_css_decor node cssst.1, cssst.2)

/-! ## Text escaping (lines 289, 354, 380) -/

/-- The escape of line 289 (the generic TEXT branch):
`characters.replace('<','&lt;').replace('>','&gt;').replace('\n','<br>')`. -/
def mainEscape (s : String) : String :=
  String.mk (replaceChar '\n' "<br>".data
    (replaceChar '>' "&gt;".data
      (replaceChar '<' "&lt;".data s.data)))

/-- The escape of lines 354 and 380 (the button and bordered-text span
paths): only `<` and `>` are replaced; newlines are left untouched. -/
def spanEscape (s : String) : String :=
  String.mk (replaceChar '>' "&gt;".data
    (replaceChar '<' "&lt;".data s.data))

/-! ## `traverse_node` (lines 273-415) -/

/-- The result of one `traverse_node` call: the HTML fragment, the
class-name → CSS-dict rules, and the updated converter state. -/
structure TravResult where
  html : String
  rules : List (String × List (String × CssVal))
  state : ConvState

/-- The `<span>` inlining of a TEXT child shared by the button path
(lines 342-355) and the bordered-container path (lines 368-381): the
span's class, its typography/color CSS and the escaped content. Returns
the span HTML, the text class, its CSS dict, and the updated state. -/
def inlineTextSpan (child : NodeData) (st : ConvState) :
    String × String × List (String × CssVal) × ConvState :=
  let text_class := sanitize_class_name (child.name.getD "text")
    (child.id.getD "")
  let tf := get_typography child.style st.fonts_used
  let text_css := tf.1
  let st := { st with fonts_used := tf.2 }
  let text_css :=
    match child.fills with
    | [] => text_css
    | f :: _ =>
      if f.visible then
        let text_css := alSet text_css "color" (.color (color_to_css f.color))
        match f.opacity with
        | some o => alSet text_css "opacity" (.num o)
        | none => text_css
      else text_css
  let text_css := alSet text_css "white-space" (.raw "nowrap")
  let content := spanEscape (child.characters.getD "")
  ("<span class=\"" ++ text_class ++ "\">" ++ content ++ "</span>",
   text_class, text_css, st)

mutual

/-- `traverse_node` (lines 273-415), with the converter state passed and
returned explicitly. `depth` is carried but, as in the source, unused. -/
def traverse_node (node : Node) (depth : Nat)
    (is_root parent_has_layout : Bool) (st : ConvState) : TravResult :=
  match node with
  | .mk d children =>
    let node_type := d.ntype
    let node_name := d.name.getD "unnamed"
    let node_id := d.id.getD "no-id"
    let class_name := sanitize_class_name node_name node_id
    if d.visible = false then ⟨"", [], st⟩
    else
      let current_has_layout := layoutTruthy d.layoutMode
      if node_type = "TEXT" then
        let content := mainEscape (d.characters.getD "")
        let cs := node_to_css d class_name is_root parent_has_layout st
        let css := cs.1
        let st := cs.2
        let tf := get_typography d.style st.fonts_used
        let st := { st with fonts_used := tf.2 }
        let css := alUpdate css tf.1
        let css :=
          match d.fills with
          | [] => css
          | f :: _ =>
            if f.visible then
              let css := alSet css "color" (.color (color_to_css f.color))
              match f.opacity with
              | some o => alSet css "opacity" (.num o)
              | none => css
            else css
        let css := alSet css "display" (.raw "block")
        let css := alSet css "white-space" (.raw "pre-wrap")
        let css := alSet css "word-wrap" (.raw "break-word")
        let css :=
          if (alGet css "background").isSome ∧
              alGet css "background" = alGet css "color" then
            alRemove css "background"
          else css
        ⟨"<div class=\"" ++ class_name ++ "\">" ++ content ++ "</div>",
         [(class_name, css)], st⟩
      else if ["RECTANGLE", "ELLIPSE", "FRAME", "GROUP", "COMPONENT",
               "INSTANCE"].contains node_type then
        let cs := node_to_css d class_name is_root parent_has_layout st
        let css := cs.1
        let st := cs.2
        let css := if node_type = "ELLIPSE"
          then alSet css "border-radius" (.raw "50%") else css
        let has_image := d.fills.any (fun f => f.visible && f.ptype = "IMAGE")
        let st := if has_image
          then { st with images := alSet st.images (d.id.getD "no-id")
                                     class_name }
          else st
        let css := if has_image
          then alSet (alSet css "background-size" (.raw "cover"))
            "background-position" (.raw "center")
          else css
        let bounds := d.bbox.getD {}
        if children.isEmpty = true ∧ bounds.height.getD 0 < 50 ∧
            bounds.width.getD 0 < 400 then
          ⟨"<div class=\"" ++ class_name ++ "\"></div>",
           [(class_name, css)], st⟩
        else
          let has_text_child := children.any
            (fun c => c.data.ntype = "TEXT")
          let stroke_color := (get_strokes d).1
          if has_text_child = true ∧ children.length = 1 ∧
              (children.headD (.mk {} [])).data.ntype = "TEXT" ∧
              stroke_color = none then
            let css := alSet (alSet (alSet css "display" (.raw "flex"))
              "align-items" (.raw "center")) "justify-content" (.raw "center")
            let text_child := (children.headD (.mk {} [])).data
            let sp := inlineTextSpan text_child st
            let st := sp.2.2.2
            ⟨"<div class=\"" ++ class_name ++ "\">" ++ sp.1 ++ "</div>",
             alSet (alSet [] class_name css) sp.2.1 sp.2.2.1, st⟩
          else
            let css :=
              if has_text_child = true ∧ stroke_color.isSome = true then
                alSet (alSet (alSet (alSet css "display" (.raw "flex"))
                  "align-items" (.raw "center"))
                  "padding-left" (.px 16)) "padding-right" (.px 16)
              else css
            let rec_res := traverseChildren children (depth + 1)
              stroke_color.isSome current_has_layout [] [] st
            let children_html := rec_res.1
            let css_rules := rec_res.2.1
            let st := rec_res.2.2
            let inner_html :=
              if children_html ≠ [] then
                String.intercalate "\n    " children_html
              else ""
            ⟨"<div class=\"" ++ class_name ++ "\">\n    " ++ inner_html ++
               "\n  </div>",
             alSet css_rules class_name css, st⟩
      else if node_type = "VECTOR" then
        let cs := node_to_css d class_name is_root parent_has_layout st
        let css := cs.1
        let st := cs.2
        let st := { st with images := alSet st.images (d.id.getD "no-id")
                              class_name }
        let css := alSet (alSet (alSet css "background-size" (.raw "contain"))
          "background-repeat" (.raw "no-repeat"))
          "background-position" (.raw "center")
        ⟨"<div class=\"" ++ class_name ++ "\"></div>",
         [(class_name, css)], st⟩
      else if node_type = "CANVAS" then
        canvasLoop children depth st
      else if node_type = "DOCUMENT" then
        let res := docLoop children depth [] [] st
        ⟨String.intercalate "\n  " res.1, res.2.1, res.2.2⟩
      else ⟨"", [], st⟩

/-- The CANVAS loop (lines 403-406): recurse into the first visible
FRAME child with `is_root=True`; no markup if none exists. -/
def canvasLoop (cs : List Node) (depth : Nat) (st : ConvState) :
    TravResult :=
  match cs with
  | [] => ⟨"", [], st⟩
  | c :: rest =>
    if c.data.ntype = "FRAME" && c.data.visible then
      traverse_node c depth true false st
    else canvasLoop rest depth st

/-- The DOCUMENT loop (lines 408-413): visit every child with
`is_root=False, parent_has_layout=False`, collecting non-empty HTML
fragments and merging rule dicts. -/
def docLoop (cs : List Node) (depth : Nat) (html_parts : List String)
    (css_rules : List (String × List (String × CssVal))) (st : ConvState) :
    List String × List (String × List (String × CssVal)) × ConvState :=
  match cs with
  | [] => (html_parts, css_rules, st)
  | c :: rest =>
    let r := traverse_node c depth false false st
    let html_parts := if r.html ≠ "" then html_parts ++ [r.html]
      else html_parts
    let css_rules := alUpdate css_rules r.rules
    docLoop rest depth html_parts css_rules r.state

/-- The general-case child loop (lines 366-387): a TEXT child of a
stroked container is inlined as a span; every other child is recursed
into with `parent_has_layout` set to this container's layout flag. -/
def traverseChildren (cs : List Node) (depth : Nat)
    (stroke_present current_has_layout : Bool)
    (children_html : List String)
    (css_rules : List (String × List (String × CssVal))) (st : ConvState) :
    List String × List (String × List (String × CssVal)) × ConvState :=
  match cs with
  | [] => (children_html, css_rules, st)
  | c :: rest =>
    if c.data.ntype = "TEXT" && stroke_present then
      let sp := inlineTextSpan c.data st
      let css_rules := alSet css_rules sp.2.1 sp.2.2.1
      traverseChildren rest depth stroke_present current_has_layout
        (children_html ++ [sp.1]) css_rules sp.2.2.2
    else
      let r := traverse_node c depth false current_has_layout st
      let children_html := if r.html ≠ "" then children_html ++ [r.html]
        else children_html
      let css_rules := alUpdate css_rules r.rules
      traverseChildren rest depth stroke_present current_has_layout
        children_html css_rules r.state

end

/-! ## Asset resolution inside `convert` (lines 479-502) -/

/-- The per-asset download loop of `convert` (lines 489-501).
`urls` models the export batch result `image_urls`: `none` stands for a
node id that is absent from the map or mapped to a falsy (null/empty)
URL, which line 490 skips. `download` models `download_image`: `false`
means the download raised, which the `except` arm catches and logs —
that asset's rule is left without a `background-image` patch and the
loop continues with the remaining assets. On success, if the class has
a rule, its `background-image` is set to `url('assets/<class>.png')`.
Returns the patched rules and the `downloaded` counter. -/
def processImages (urls : String → Option String)
    (download : String → Bool) :
    List (String × String) → List (String × List (String × CssVal)) →
    List (String × List (String × CssVal)) × Nat
  | [], rules => (rules, 0)
  | (node_id, cls) :: rest, rules =>
    match urls node_id with
    | none => processImages urls download rest rules
    | some u =>
      if download u then
        let rules :=
          if (alGet rules cls).isSome then
            alSet rules cls
              (alSet ((alGet rules cls).getD []) "background-image"
                (.url ("assets/" ++ cls ++ ".png")))
          else rules
        let r := processImages urls download rest rules
        (r.1, r.2 + 1)
      else processImages urls download rest rules

/-- The conversion core of `convert`'s `try` block (lines 479-505):
traverse the document, then, if any images were registered, resolve
assets. `fetchImagesRes` models the `fetch_images` batch call: an
`Except.error` is the exception it raises, which propagates out of the
asset phase and aborts the conversion (no CSS/HTML is generated; the
outer handler of lines 540-550 only reports it). The returned triple
is the HTML body, the final rules and the downloaded count, which the
renderer then serializes. -/
def convertBody (doc : Node)
    (fetchImagesRes : Except String (String → Option String))
    (download : String → Bool) :
    Except String
      (String × List (String × List (String × CssVal)) × Nat) :=
  let r := traverse_node doc 0 false false {}
  if r.state.images ≠ [] then
    match fetchImagesRes with
    | .error e => .error e
    | .ok urls =>
      let p := processImages urls download r.state.images r.rules
      .ok (r.html, p.1, p.2)
  else .ok (r.html, r.rules, 0)

/-! ## `main` (lines 552-564) -/

/-- The observable outcome of running `main` once. `stdoutLines` and
`stderrLines` are the lines printed to each stream before returning;
`networkAttempted` records whether any HTTP request was issued;
`exitCode` is the process exit status. -/
structure MainResult where
  exitCode : Nat
  stdoutLines : List String
  stderrLines : List String
  networkAttempted : Bool
  deriving DecidableEq, Repr

/-- Python `a or b` over `os.getenv` results: the first truthy value
(`None` and the empty string are falsy), else `b`'s value. -/
def pyOr (a b : Option String) : Option String :=
  match a with
  | some s => if s ≠ "" then some s else b
  | none => b

/-- Python truthiness of an optional string. -/
def truthyS : Option String → Bool
  | none => false
  | some s => s ≠ ""

/-- `main` (lines 552-564). When either credential resolves falsy, the
source prints four lines to stdout with `print` and executes a bare
`return`: the process then terminates normally (exit status 0), with
nothing on stderr and no network request made. Otherwise it constructs
the converter and runs `convert`, whose very first step issues the
file-fetch HTTP request; that whole-run outcome is the `convertRun`
parameter (every exception inside `convert` is caught there, so that
branch also exits 0). -/
def mainEntry (env : String → Option String) (convertRun : MainResult) :
    MainResult :=
  let api_key := pyOr (env "FIGMA_TOKEN") (env "FIGMA_API_KEY")
  let file_key := pyOr (env "FIGMA_KEY") (env "FIGMA_FILE_KEY")
  if truthyS api_key = false ∨ truthyS file_key = false then
    { exitCode := 0
      stdoutLines :=
        ["Error: Missing environment variables!",
         "Add to .env file:",
         "  FIGMA_TOKEN=your_api_key",
         "  FIGMA_KEY=your_file_key"]
      stderrLines := []
      networkAttempted := false }
  else convertRun

/-! ## Shared lemmas about the dict model -/

theorem find?_map_overwrite {α : Type} {k k' : String} (h : k' ≠ k)
    (v : α) (d : List (String × α)) :
    (d.map (fun p => if p.1 = k then (k, v) else p)).find?
        (fun p => p.1 = k') =
      d.find? (fun p => p.1 = k') := by
  induction d with
  | nil => simp
  | cons q rest ih =>
    by_cases hq : q.1 = k
    · rw [List.map_cons, if_pos hq, List.find?, List.find?]
      have h1 : (decide (k = k')) = false := by simp [Ne.symm h]
      have h2 : (decide (q.1 = k')) = false := by
        simp only [decide_eq_false_iff_not, hq]
        exact Ne.symm h
      rw [h1, h2, ih]
    · rw [List.map_cons, if_neg hq, List.find?, List.find?]
      cases hd : decide (q.1 = k') <;> simp [ih]

theorem alGet_alSet_self {α : Type} (d : List (String × α)) (k : String)
    (v : α) : alGet (alSet d k v) k = some v := by
  unfold alSet alGet
  by_cases hany : d.any (fun p => p.1 = k) = true
  · rw [if_pos hany]
    induction d with
    | nil => simp at hany
    | cons p rest ih =>
      by_cases hp : p.1 = k
      · simp [List.find?, hp]
      · rw [List.map_cons, if_neg hp, List.find?]
        have h2 : (decide (p.1 = k)) = false := by simp [hp]
        rw [h2]
        simp only [List.any_cons, hp] at hany
        exact ih (by simpa using hany)
  · rw [if_neg hany]
    rw [List.find?_append]
    have hall : ∀ p ∈ d, ¬ p.1 = k := by
      intro p hp hk
      exact hany (List.any_eq_true.mpr ⟨p, hp, by simp [hk]⟩)
    have hnone : d.find? (fun p => p.1 = k) = none := by
      rw [List.find?_eq_none]
      intro p hp
      simpa using hall p hp
    simp [hnone, List.find?]

theorem alGet_alSet_ne {α : Type} {k k' : String} (h : k' ≠ k)
    (d : List (String × α)) (v : α) :
    alGet (alSet d k v) k' = alGet d k' := by
  unfold alSet alGet
  by_cases hany : d.any (fun p => p.1 = k) = true
  · rw [if_pos hany, find?_map_overwrite h]
  · rw [if_neg hany, List.find?_append]
    have : ([(k, v)].find? (fun p => p.1 = k')) = none := by
      simp [List.find?, Ne.symm h]
    rw [this]
    cases hd : d.find? (fun p => p.1 = k') <;> simp [hd]

theorem alGet_alUpdate_notin {α : Type} {k : String}
    (e d : List (String × α)) (h : ∀ p ∈ e, p.1 ≠ k) :
    alGet (alUpdate d e) k = alGet d k := by
  induction e generalizing d with
  | nil => rfl
  | cons p rest ih =>
    show alGet (alUpdate (alSet d p.1 p.2) rest) k = alGet d k
    rw [ih _ (fun q hq => h q (List.mem_cons_of_mem _ hq))]
    exact alGet_alSet_ne (Ne.symm (h p (List.mem_cons_self _ _))) _ _

theorem decorUpdates_keys (node : NodeData) :
    ∀ p ∈ decorUpdates node,
      p.1 ∈ (["transform", "background", "border", "border-radius",
              "box-shadow", "opacity", "overflow"] : List String) := by
  intro p hp
  simp only [decorUpdates, List.mem_append] at hp
  rcases hp with ((((((h | h) | h) | h) | h) | h) | h) <;>
    (repeat' split at h) <;> simp_all

theorem layoutUpdates_keys (node : NodeData) :
    ∀ p ∈ layoutUpdates node,
      p.1 ∈ (["display", "flex-direction", "align-items",
              "justify-content", "padding-left", "padding-right",
              "padding-top", "padding-bottom", "gap"] : List String) := by
  intro p hp
  simp only [layoutUpdates, List.mem_append] at hp
  rcases hp with (((((((((h | h) | h) | h) | h) | h) | h) | h) | h) | h) <;>
    (repeat' split at h) <;> try simp_all
  all_goals (rename_i hmem; exact absurd hmem (List.not_mem_nil _))

theorem alGet_node_to_css_decor (node : NodeData)
    (css : List (String × CssVal)) {k : String}
    (h1 : k ≠ "transform") (h2 : k ≠ "background") (h3 : k ≠ "border")
    (h4 : k ≠ "border-radius") (h5 : k ≠ "box-shadow") (h6 : k ≠ "opacity")
    (h7 : k ≠ "overflow") :
    alGet (node_to_css_decor node css) k = alGet css k := by
  refine alGet_alUpdate_notin _ _ (fun p hp hk => ?_)
  have := decorUpdates_keys node p hp
  rw [hk] at this
  simp only [List.mem_cons, List.not_mem_nil] at this
  rcases this with h | h | h | h | h | h | h | h <;> simp_all

theorem alGet_node_to_css_layout (node : NodeData)
    (css : List (String × CssVal)) {k : String}
    (h1 : k ≠ "display") (h2 : k ≠ "flex-direction") (h3 : k ≠ "align-items")
    (h4 : k ≠ "justify-content") (h5 : k ≠ "padding-left")
    (h6 : k ≠ "padding-right") (h7 : k ≠ "padding-top")
    (h8 : k ≠ "padding-bottom") (h9 : k ≠ "gap") :
    alGet (node_to_css_layout node css) k = alGet css k := by
  refine alGet_alUpdate_notin _ _ (fun p hp hk => ?_)
  have := layoutUpdates_keys node p hp
  rw [hk] at this
  simp only [List.mem_cons, List.not_mem_nil] at this
  rcases this with h | h | h | h | h | h | h | h | h | h <;> simp_all

/-- The number of entries of the image map carrying a given node id. -/
def countKey (l : List (String × String)) (k : String) : Nat :=
  (l.filter (fun p => p.1 = k)).length

theorem countKey_alSet_fresh (l : List (String × String)) (k v : String)
    (h : alGet l k = none) : countKey (alSet l k v) k = 1 := by
  have hfind : l.find? (fun p => p.1 = k) = none := by
    unfold alGet at h
    cases hf : l.find? (fun p => p.1 = k) <;> simp [hf] at h ⊢
  have hall : ∀ p ∈ l, ¬ p.1 = k := by
    intro p hp
    have := List.find?_eq_none.mp hfind p hp
    simpa using this
  have hany : l.any (fun p => p.1 = k) = false := by
    rw [List.any_eq_false]
    intro p hp
    simpa using hall p hp
  unfold alSet countKey
  rw [if_neg (by simp [hany])]
  rw [List.filter_append]
  have : l.filter (fun p => p.1 = k) = [] := by
    rw [List.filter_eq_nil_iff]
    intro p hp
    simpa using hall p hp
  simp [this]

/-! ## Claim C4: `color_to_css` -/

/-- Modelled from the spec's words for claim C4 only (not from the
source): the claimed per-channel computation "round(channel*255)
clamped to [0,255]". The source instead truncates with `int()`. -/
def roundChannelClaimed (q : ℚ) : ℤ := max 0 (min 255 (round (q * 255)))

/-- C4 counterexample: for the color dict with `r = 0.5`, the source
computes the red channel as `int(0.5*255) = int(127.5) = 127`
(truncation), while the claimed `round(0.5*255) = round(127.5) = 128`;
so `color_to_css` does not compute `round(channel*255)` clamped. -/
theorem claim4_counterexample :
    color_to_css (ColorInput.dict { r := some (1/2) }) =
      CssColor.rgba 127 0 0 1 ∧
    roundChannelClaimed (1/2) = 128 ∧ (127 : ℤ) ≠ 128 := by
  refine ⟨by with_unfolding_all rfl, ?_, by decide⟩
  unfold roundChannelClaimed
  rw [round_eq]
  norm_num

/-- C4 (amended): `color_to_css` maps `None`/non-dict (and the falsy
empty dict) to "transparent"; on any other color dict each output
channel is `int(channel*255)` — truncation toward zero, not rounding —
clamped to [0,255], and alpha is clamped to [0,1]; consequently, for
arbitrary (also out-of-range) inputs the output channels always lie in
[0,255] and alpha in [0,1]. -/
theorem claim4_truncated_clamped (c : ColorInput) :
    color_to_css ColorInput.nonDict = CssColor.transparent ∧
    (∀ d : ColorDict, d.isEmptyDict = false →
      color_to_css (ColorInput.dict d) =
        CssColor.rgba (max 0 (min 255 (truncQ ((d.r.getD 0) * 255))))
          (max 0 (min 255 (truncQ ((d.g.getD 0) * 255))))
          (max 0 (min 255 (truncQ ((d.b.getD 0) * 255))))
          (max 0 (min 1 (d.a.getD 1)))) ∧
    (∀ r g b a, color_to_css c = CssColor.rgba r g b a →
      0 ≤ r ∧ r ≤ 255 ∧ 0 ≤ g ∧ g ≤ 255 ∧ 0 ≤ b ∧ b ≤ 255 ∧
      0 ≤ a ∧ a ≤ 1) := by
  refine ⟨rfl, ?_, ?_⟩
  · intro d h
    simp [color_to_css, h]
  · intro r g b a h
    match c with
    | .nonDict => simp [color_to_css] at h
    | .dict d =>
      by_cases he : d.isEmptyDict
      · simp [color_to_css, he] at h
      · simp [color_to_css, he] at h
        obtain ⟨hr, hg, hb, ha⟩ := h
        refine ⟨?_, ?_, ?_, ?_, ?_, ?_, ?_, ?_⟩
        · rw [← hr]; exact le_max_left _ _
        · rw [← hr]; exact max_le (by norm_num) (min_le_left _ _)
        · rw [← hg]; exact le_max_left _ _
        · rw [← hg]; exact max_le (by norm_num) (min_le_left _ _)
        · rw [← hb]; exact le_max_left _ _
        · rw [← hb]; exact max_le (by norm_num) (min_le_left _ _)
        · rw [← ha]; exact le_max_left _ _
        · rw [← ha]; exact max_le (by norm_num) (min_le_left _ _)

/-- Witness for C4: the amended theorem applied at the out-of-range
color dict with `r = 2` and `a = 5`, whose output is clamped to
channel 255 and alpha 1. -/
theorem claim4_witness :
    (color_to_css (ColorInput.dict { r := some 2, a := some 5 }) =
      CssColor.rgba (max 0 (min 255 (truncQ ((2:ℚ) * 255))))
        (max 0 (min 255 (truncQ ((0:ℚ) * 255))))
        (max 0 (min 255 (truncQ ((0:ℚ) * 255))))
        (max 0 (min 1 (5:ℚ)))) ∧
    ((0:ℤ) ≤ 255 ∧ (255:ℤ) ≤ 255 ∧ (0:ℤ) ≤ 0 ∧ (0:ℤ) ≤ 255 ∧
      (0:ℤ) ≤ 0 ∧ (0:ℤ) ≤ 255 ∧ (0:ℚ) ≤ 1 ∧ (1:ℚ) ≤ 1) := by
  constructor
  · exact (claim4_truncated_clamped ColorInput.nonDict).2.1
      { r := some 2, a := some 5 } (by rfl)
  · exact (claim4_truncated_clamped
        (ColorInput.dict { r := some 2, a := some 5 })).2.2 255 0 0 1
      (by with_unfolding_all rfl)

/-! ## Claim C3: gradient angle -/

theorem atan2_one_zero : atan2 1 0 = Real.pi / 2 := by
  norm_num [atan2]

theorem atan2_zero_one : atan2 0 1 = 0 := by
  norm_num [atan2, Real.arctan_zero]

theorem toDegrees_pi_div_two : toDegrees (Real.pi / 2) = 90 := by
  unfold toDegrees
  field_simp
  ring

theorem pymodR_ninety : pymodR 90 360 = 90 := by
  unfold pymodR
  have : ⌊(90:ℝ)/360⌋ = 0 := by
    rw [Int.floor_eq_zero_iff]
    constructor <;> norm_num
  rw [this]
  norm_num

theorem pymodR_zero : pymodR 0 360 = 0 := by
  unfold pymodR
  norm_num

/-- C3 counterexample: for the handles `[(0,0),(0,1)]` the source
computes `atan2(1,0) = 90°`, hence a CSS angle of `(90-90) % 360 = 0`,
not the claimed 180°. -/
theorem gradientCssAngle_cons (h1 h2 : GPoint) (rest : List GPoint) :
    gradientCssAngle (h1 :: h2 :: rest) =
      pymodR (90 - toDegrees (atan2 (h2.y - h1.y) (h2.x - h1.x))) 360 := by
  unfold gradientCssAngle
  rfl

theorem claim3_counterexample :
    gradientCssAngle [⟨0, 0⟩, ⟨0, 1⟩] = 0 ∧
    gradientCssAngle [⟨0, 0⟩, ⟨0, 1⟩] ≠ 180 := by
  have h : gradientCssAngle [⟨0, 0⟩, ⟨0, 1⟩] = 0 := by
    rw [gradientCssAngle_cons]
    norm_num [atan2_one_zero, toDegrees_pi_div_two, pymodR_zero]
  exact ⟨h, by rw [h]; norm_num⟩

/-- C3 (amended): for every GRADIENT_LINEAR fill with at least 2 stops
and at least 2 handle positions, the CSS gradient angle is
`(90° − atan2(dy,dx) in degrees) mod 360` for the vector `(dx,dy)` from
the first to the second handle; handles `[(0,0),(1,0)]` give 90° and
handles `[(0,0),(0,1)]` give 0° (not 180°); with fewer than 2 handles
the angle defaults to 180°. -/
theorem claim3_gradient_angle :
    (∀ (h1 h2 : GPoint) (rest : List GPoint),
      gradientCssAngle (h1 :: h2 :: rest) =
        pymodR (90 - toDegrees (atan2 (h2.y - h1.y) (h2.x - h1.x))) 360) ∧
    gradientCssAngle [] = 180 ∧
    (∀ p : GPoint, gradientCssAngle [p] = 180) ∧
    gradientCssAngle [⟨0, 0⟩, ⟨1, 0⟩] = 90 ∧
    gradientCssAngle [⟨0, 0⟩, ⟨0, 1⟩] = 0 ∧
    (∀ (fill : Paint) (rest : List Paint),
      fill.visible = true → fill.ptype = "GRADIENT_LINEAR" →
      2 ≤ fill.gradientStops.length →
      get_fills (fill :: rest) =
        CssVal.gradient fill.gradientHandlePositions
          (fill.gradientStops.map
            (fun s => (color_to_css s.color, s.position * 100)))) := by
  refine ⟨gradientCssAngle_cons, rfl, fun p => rfl, ?_, ?_, ?_⟩
  · rw [gradientCssAngle_cons]
    norm_num [atan2_zero_one, toDegrees, pymodR_ninety]
  · rw [gradientCssAngle_cons]
    norm_num [atan2_one_zero, toDegrees_pi_div_two, pymodR_zero]
  · intro fill rest hv hp hlen
    simp [get_fills, hv, hp, hlen]

/-- Witness for C3: the amended theorem's `get_fills` conjunct applied
to a concrete two-stop linear-gradient fill. -/
theorem claim3_witness :
    get_fills [{ ptype := "GRADIENT_LINEAR",
                 gradientStops :=
                   [⟨ColorInput.dict { r := some 1 }, 0⟩,
                    ⟨ColorInput.dict { b := some 1 }, 1⟩],
                 gradientHandlePositions := [⟨0, 0⟩, ⟨1, 0⟩] }] =
      CssVal.gradient [⟨0, 0⟩, ⟨1, 0⟩]
        ([⟨ColorInput.dict { r := some 1 }, (0:ℚ)⟩,
          ⟨ColorInput.dict { b := some 1 }, (1:ℚ)⟩].map
          (fun s : GradStop => (color_to_css s.color, s.position * 100))) := by
  exact claim3_gradient_angle.2.2.2.2.2 _ [] rfl rfl (by norm_num)

/-! ## Claim C10: newline handling in TEXT content -/

/-- A concrete button-pattern container (single TEXT child, no stroke)
whose text contains a newline, exercising the span path of line 354. -/
def c10Button : Node :=
  .mk { ntype := "FRAME", name := some "btn", id := some "3:1",
        bbox := some ⟨some 0, some 0, some 200, some 60⟩ }
    [.mk { ntype := "TEXT", name := some "label", id := some "3:2",
           characters := some "a\nb" } []]

/-- C10: in the generic TEXT branch every newline of `characters` is
replaced by the literal "<br>" (after `<`/`>` are escaped): the main
escape equals the span escape followed by the newline replacement, every
visited TEXT node emits its characters under the main escape, and
`"a\nb"` becomes `"a<br>b"`; in the button span path (line 354) the
newline is left untouched, as the emitted fragment of the concrete
button shows. -/
theorem claim10_newline_br :
    (∀ s : String, mainEscape s =
      String.mk (replaceChar '\n' "<br>".data (spanEscape s).data)) ∧
    (∀ (d : NodeData) (cs : List Node) (depth : Nat) (ir phl : Bool)
        (st : ConvState),
      d.ntype = "TEXT" → d.visible = true →
      (traverse_node (.mk d cs) depth ir phl st).html =
        "<div class=\"" ++
          sanitize_class_name (d.name.getD "unnamed") (d.id.getD "no-id") ++
          "\">" ++ mainEscape (d.characters.getD "") ++ "</div>") ∧
    mainEscape "a\nb" = "a<br>b" ∧
    spanEscape "a\nb" = "a\nb" ∧
    (traverse_node c10Button 0 false false {}).html =
      "<div class=\"btn-31\"><span class=\"label-32\">a\nb</span></div>" := by
  refine ⟨fun s => rfl, ?_, by decide, by decide, by with_unfolding_all rfl⟩
  intro d cs depth ir phl st hT hv
  simp [traverse_node, hT, hv]

/-- Witness for C10: the TEXT-branch conjunct applied to a concrete
TEXT node. -/
theorem claim10_witness :
    (traverse_node (.mk { ntype := "TEXT", characters := some "x" } [])
        0 false false {}).html =
      "<div class=\"" ++ sanitize_class_name "unnamed" "no-id" ++ "\">" ++
        mainEscape "x" ++ "</div>" := by
  exact claim10_newline_br.2.1 _ [] 0 false false {} rfl rfl

/-! ## Claim C9: missing credentials -/

/-- C9: when either credential resolves falsy from the environment,
`main` (lines 556-561) prints four lines with `print` — to stdout, not
stderr — and executes a bare `return`, so the process terminates with
exit status 0 and no network request is made. The claim is right that no
network call happens, but the code exits 0 and writes nothing to stderr,
contradicting the claim's non-zero exit status and stderr-visible
message. -/
theorem claim9_missing_credentials (convertRun : MainResult)
    (env : String → Option String)
    (h : truthyS (pyOr (env "FIGMA_TOKEN") (env "FIGMA_API_KEY")) = false ∨
         truthyS (pyOr (env "FIGMA_KEY") (env "FIGMA_FILE_KEY")) = false) :
    mainEntry env convertRun =
      { exitCode := 0
        stdoutLines :=
          ["Error: Missing environment variables!",
           "Add to .env file:",
           "  FIGMA_TOKEN=your_api_key",
           "  FIGMA_KEY=your_file_key"]
        stderrLines := []
        networkAttempted := false } := by
  unfold mainEntry
  rw [if_pos h]

/-- Witness for C9: the empty environment (no credential variables set):
exit status 0, the stdout message, empty stderr, no network attempted. -/
theorem claim9_witness :
    mainEntry (fun _ => none)
        { exitCode := 0, stdoutLines := [], stderrLines := [],
          networkAttempted := true } =
      { exitCode := 0
        stdoutLines :=
          ["Error: Missing environment variables!",
           "Add to .env file:",
           "  FIGMA_TOKEN=your_api_key",
           "  FIGMA_KEY=your_file_key"]
        stderrLines := []
        networkAttempted := false } := by
  exact claim9_missing_credentials _ _ (Or.inl rfl)

/-! ## Claim C8: per-asset download failure tolerance -/

/-- The attributes of a concrete VECTOR node. -/
def vecC8Data : NodeData :=
  { ntype := "VECTOR", name := some "icon", id := some "9:1" }

/-- A concrete VECTOR document that registers one image asset. -/
def vecC8 : Node := .mk vecC8Data []

/-- C8: a failed download of one asset is skipped: the loop continues
exactly as without that asset (its rule is left intact); a class all of
whose assets fail keeps its rule without any `background-image`; if the
batch export call raises, the conversion aborts with that error; with
the batch call succeeding, the conversion always completes no matter
which downloads fail; concretely, with two assets where the first
download fails and the second succeeds, only the second rule is patched
and one download is counted. -/
theorem claim8_download_failure :
    (∀ (urls : String → Option String) (download : String → Bool)
        (node_id cls u : String) (rest : List (String × String))
        (rules : List (String × List (String × CssVal))),
      urls node_id = some u → download u = false →
      processImages urls download ((node_id, cls) :: rest) rules =
        processImages urls download rest rules) ∧
    (∀ (urls : String → Option String) (download : String → Bool)
        (images : List (String × String))
        (rules : List (String × List (String × CssVal))) (cls : String),
      (∀ p ∈ images, p.2 = cls →
        ∀ u, urls p.1 = some u → download u = false) →
      alGet (processImages urls download images rules).1 cls =
        alGet rules cls) ∧
    (∀ (doc : Node) (e : String) (download : String → Bool),
      (traverse_node doc 0 false false {}).state.images ≠ [] →
      convertBody doc (.error e) download = .error e) ∧
    (∀ (doc : Node) (urls : String → Option String)
        (download : String → Bool),
      (convertBody doc (.ok urls) download).isOk = true) ∧
    processImages
        (fun id => if id = "i1" then some "u1"
                   else if id = "i2" then some "u2" else none)
        (fun u => u = "u2")
        [("i1", "c1"), ("i2", "c2")] [("c1", []), ("c2", [])] =
      ([("c1", []),
        ("c2", [("background-image", CssVal.url "assets/c2.png")])], 1) := by
  refine ⟨?_, ?_, ?_, ?_, by with_unfolding_all rfl⟩
  · intro urls download node_id cls u rest rules h1 h2
    simp [processImages, h1, h2]
  · intro urls download images rules cls h
    induction images generalizing rules with
    | nil => rfl
    | cons p rest ih =>
      obtain ⟨node_id, cls'⟩ := p
      rw [processImages]
      cases hu : urls node_id with
      | none =>
        exact ih rules (fun q hq => h q (List.mem_cons_of_mem _ hq))
      | some u =>
        by_cases hd : download u
        · have hne : cls' ≠ cls := by
            intro hcon
            have := h (node_id, cls') (List.mem_cons_self _ _) hcon u hu
            rw [this] at hd
            exact Bool.false_ne_true (by simpa using hd)
          simp only [hd, if_pos]
          split
          · rw [ih _ (fun q hq => h q (List.mem_cons_of_mem _ hq))]
            exact alGet_alSet_ne (Ne.symm hne) _ _
          · exact ih _ (fun q hq => h q (List.mem_cons_of_mem _ hq))
        · simp only [Bool.not_eq_true] at hd
          simp only [hd, Bool.false_eq_true, if_neg, not_false_iff]
          exact ih rules (fun q hq => h q (List.mem_cons_of_mem _ hq))
  · intro doc e download h
    simp [convertBody, h]
  · intro doc urls download
    by_cases h : (traverse_node doc 0 false false {}).state.images ≠ []
    · simp [convertBody, h, Except.isOk, Except.toBool]
    · simp [convertBody, h, Except.isOk, Except.toBool]

/-- Witness for C8: the batch-failure conjunct applied to the concrete
one-vector document, and the skip conjunct applied at concrete inputs. -/
theorem claim8_witness :
    convertBody vecC8 (.error "boom") (fun _ => true) = .error "boom" ∧
    processImages (fun _ => some "u") (fun _ => false)
        [("i", "c")] [("c", [])] =
      processImages (fun _ => some "u") (fun _ => false) [] [("c", [])] := by
  constructor
  · exact claim8_download_failure.2.2.1 vecC8 "boom" (fun _ => true)
      (by rw [show (traverse_node vecC8 0 false false {}).state.images =
            [("9:1", "icon-91")] from by with_unfolding_all rfl]
          simp)
  · exact claim8_download_failure.1 _ _ "i" "c" "u" [] [("c", [])] rfl rfl

/-! ## Claim C7: VECTOR nodes -/

/-- C7: every visited (visible) VECTOR node — with arbitrary fills, so
in particular regardless of their visibility — registers its node id in
the image map mapped to its class name; if the id was not registered
before (node ids are unique in a document), it occurs there exactly
once afterwards; its single style rule carries
`background-size: contain`, `background-repeat: no-repeat` and
`background-position: center`; and it emits an empty `<div>`. -/
theorem claim7_vector (d : NodeData) (cs : List Node) (depth : Nat)
    (ir phl : Bool) (st : ConvState)
    (hT : d.ntype = "VECTOR") (hv : d.visible = true)
    (hfresh : alGet st.images (d.id.getD "no-id") = none) :
    (traverse_node (.mk d cs) depth ir phl st).html =
      "<div class=\"" ++
        sanitize_class_name (d.name.getD "unnamed") (d.id.getD "no-id") ++
        "\"></div>" ∧
    (traverse_node (.mk d cs) depth ir phl st).state.images =
      alSet st.images (d.id.getD "no-id")
        (sanitize_class_name (d.name.getD "unnamed") (d.id.getD "no-id")) ∧
    countKey (traverse_node (.mk d cs) depth ir phl st).state.images
      (d.id.getD "no-id") = 1 ∧
    (∃ css,
      (traverse_node (.mk d cs) depth ir phl st).rules =
        [(sanitize_class_name (d.name.getD "unnamed") (d.id.getD "no-id"),
          css)] ∧
      alGet css "background-size" = some (.raw "contain") ∧
      alGet css "background-repeat" = some (.raw "no-repeat") ∧
      alGet css "background-position" = some (.raw "center")) := by
  have hne : d.ntype ≠ "TEXT" := by rw [hT]; decide
  have hnc : (["RECTANGLE", "ELLIPSE", "FRAME", "GROUP", "COMPONENT",
      "INSTANCE"].contains d.ntype) = false := by rw [hT]; decide
  have hst : (node_to_css d
      (sanitize_class_name (d.name.getD "unnamed") (d.id.getD "no-id"))
      ir phl st).2.images = st.images := by
    unfold node_to_css
    split <;> rfl
  refine ⟨?_, ?_, ?_, ?_⟩
  · simp [traverse_node, hT, hv, hne, hnc]
  · simp [traverse_node, hT, hv, hne, hnc, hst]
  · simp [traverse_node, hT, hv, hne, hnc, hst]
    exact countKey_alSet_fresh _ _ _ hfresh
  · refine ⟨alSet (alSet (alSet (node_to_css d
        (sanitize_class_name (d.name.getD "unnamed") (d.id.getD "no-id"))
        ir phl st).1 "background-size" (.raw "contain"))
        "background-repeat" (.raw "no-repeat"))
        "background-position" (.raw "center"), ?_, ?_, ?_, ?_⟩
    · simp [traverse_node, hT, hv, hne, hnc]
    · rw [alGet_alSet_ne (by decide), alGet_alSet_ne (by decide)]
      exact alGet_alSet_self _ _ _
    · rw [alGet_alSet_ne (by decide)]
      exact alGet_alSet_self _ _ _
    · exact alGet_alSet_self _ _ _

/-- Witness for C7: the concrete VECTOR node of `vecC8` visited in the
empty state. -/
theorem claim7_witness :
    (traverse_node vecC8 0 false false {}).html =
      "<div class=\"" ++
        sanitize_class_name (vecC8Data.name.getD "unnamed")
          (vecC8Data.id.getD "no-id") ++ "\"></div>" ∧
    countKey (traverse_node vecC8 0 false false {}).state.images
      (vecC8Data.id.getD "no-id") = 1 := by
  have h := claim7_vector vecC8Data [] 0 false false {} rfl rfl rfl
  exact ⟨h.1, h.2.2.1⟩

/-! ## Claim C1: root-relative absolute positioning -/

theorem node_to_css_abs_eq (d : NodeData) (st : ConvState) (rb : BBox)
    (nx ny rx ry : ℚ) (hrf : st.root_frame = some rb)
    (hrx : rb.x = some rx) (hry : rb.y = some ry)
    (hnx : (d.bbox.getD {}).x = some nx)
    (hny : (d.bbox.getD {}).y = some ny) :
    node_to_css_abs d false st =
      alSet (alSet (alSet [] "position" (.raw "absolute"))
        "left" (.px (nx - rx))) "top" (.px (ny - ry)) := by
  unfold node_to_css_abs
  rw [if_pos]
  · rw [hrf]
    simp [hnx, hny, hrx, hry]
  · refine ⟨by simp, ?_, by simp [hnx], by simp [hny]⟩
    rw [hrf]
    simp [rootTruthy, hrx]

theorem alGet_node_to_css_nonroot (d : NodeData) (phl : Bool)
    (st : ConvState) {k : String} (h1 : k ≠ "width") (h2 : k ≠ "height")
    (h3 : k ≠ "display") (h4 : k ≠ "flex-direction")
    (h5 : k ≠ "align-items") (h6 : k ≠ "justify-content")
    (h7 : k ≠ "padding-left") (h8 : k ≠ "padding-right")
    (h9 : k ≠ "padding-top") (h10 : k ≠ "padding-bottom")
    (h11 : k ≠ "gap") :
    alGet (node_to_css_nonroot d phl st) k =
      alGet (node_to_css_abs d phl st) k := by
  unfold node_to_css_nonroot
  by_cases hl : layoutTruthy d.layoutMode = true <;>
    cases hw : (d.bbox.getD {}).width <;>
    cases hh : (d.bbox.getD {}).height <;>
    simp [hw, hh, hl, alGet_alSet_ne h1, alGet_alSet_ne h2,
      alGet_node_to_css_layout d _ h3 h4 h5 h6 h7 h8 h9 h10 h11]

/-- The attributes and tree of the concrete C1 example: a FRAME at
absolute (100,200) with no layout mode, containing a RECTANGLE at
absolute (150,250), reached from a CANVAS (so the frame is the root). -/
def exC1Rect : Node :=
  .mk { ntype := "RECTANGLE", name := some "rect", id := some "1:2",
        bbox := some ⟨some 150, some 250, some 100, some 100⟩ } []

def exC1Frame : Node :=
  .mk { ntype := "FRAME", name := some "frame", id := some "1:1",
        bbox := some ⟨some 100, some 200, some 800, some 600⟩ } [exC1Rect]

def exC1Canvas : Node :=
  .mk { ntype := "CANVAS", name := some "canvas", id := some "0:1" }
    [exC1Frame]

/-- C1: for every node visited with `is_root = false` whose parent is
not a flex-layout container (`parent_has_layout = false`), when a
root-frame origin with both coordinates has been recorded and the node's
bounding box has x and y, `node_to_css` sets `position: absolute`,
`left = node.x - origin.x` and `top = node.y - origin.y`; and in the
concrete example the RECTANGLE at (150,250) inside the root FRAME at
(100,200) gets `left: 50px` and `top: 50px`. -/
theorem claim1_root_relative :
    (∀ (d : NodeData) (cls : String) (st : ConvState) (rb : BBox)
        (nx ny rx ry : ℚ),
      st.root_frame = some rb → rb.x = some rx → rb.y = some ry →
      (d.bbox.getD {}).x = some nx → (d.bbox.getD {}).y = some ny →
      alGet (node_to_css d cls false false st).1 "position" =
        some (.raw "absolute") ∧
      alGet (node_to_css d cls false false st).1 "left" =
        some (.px (nx - rx)) ∧
      alGet (node_to_css d cls false false st).1 "top" =
        some (.px (ny - ry))) ∧
    (alGet ((alGet (traverse_node exC1Canvas 0 false false {}).rules
        "rect-12").getD []) "position" = some (.raw "absolute") ∧
     alGet ((alGet (traverse_node exC1Canvas 0 false false {}).rules
        "rect-12").getD []) "left" = some (.px 50) ∧
     alGet ((alGet (traverse_node exC1Canvas 0 false false {}).rules
        "rect-12").getD []) "top" = some (.px 50)) := by
  constructor
  · intro d cls st rb nx ny rx ry hrf hrx hry hnx hny
    have heq : node_to_css d cls false false st =
        (node_to_css_decor d (node_to_css_nonroot d false st), st) := rfl
    have habs := node_to_css_abs_eq d st rb nx ny rx ry hrf hrx hry hnx hny
    refine ⟨?_, ?_, ?_⟩ <;>
      rw [heq,
        alGet_node_to_css_decor _ _ (by decide) (by decide) (by decide)
          (by decide) (by decide) (by decide) (by decide),
        alGet_node_to_css_nonroot _ _ _ (by decide) (by decide) (by decide)
          (by decide) (by decide) (by decide) (by decide) (by decide)
          (by decide) (by decide) (by decide), habs]
    · rw [alGet_alSet_ne (by decide), alGet_alSet_ne (by decide)]
      exact alGet_alSet_self _ _ _
    · rw [alGet_alSet_ne (by decide)]
      exact alGet_alSet_self _ _ _
    · exact alGet_alSet_self _ _ _
  · refine ⟨?_, ?_, ?_⟩ <;> with_unfolding_all rfl

/-- Witness for C1: the universal part applied to the example
rectangle's attributes with the example root frame recorded. -/
theorem claim1_witness :
    alGet (node_to_css
        { ntype := "RECTANGLE",
          bbox := some ⟨some 150, some 250, some 100, some 100⟩ } "rect"
        false false
        { root_frame := some ⟨some 100, some 200, some 800, some 600⟩ }).1
      "left" = some (.px (150 - 100)) := by
  exact (claim1_root_relative.1
      { ntype := "RECTANGLE",
        bbox := some ⟨some 150, some 250, some 100, some 100⟩ } "rect"
      { root_frame := some ⟨some 100, some 200, some 800, some 600⟩ }
      ⟨some 100, some 200, some 800, some 600⟩ 150 250 100 200
      rfl rfl rfl rfl rfl).2.1

/-! ## Claim C6: leaf collapse -/

theorem div_wrap_ne (cls inner : String) (h : inner.length ≠ 0) :
    "<div class=\"" ++ cls ++ "\">" ++ inner ++ "</div>" ≠
      "<div class=\"" ++ cls ++ "\"></div>" := by
  intro heq
  have hlen := congrArg String.length heq
  simp only [String.length_append] at hlen
  have e1 : ("\">" : String).length = 2 := by decide
  have e2 : ("</div>" : String).length = 6 := by decide
  have e3 : ("\"></div>" : String).length = 8 := by decide
  omega

theorem div_wrap2_ne (cls inner : String) :
    "<div class=\"" ++ cls ++ "\">\n    " ++ inner ++ "\n  </div>" ≠
      "<div class=\"" ++ cls ++ "\"></div>" := by
  intro heq
  have hlen := congrArg String.length heq
  simp only [String.length_append] at hlen
  have e1 : ("\">\n    " : String).length = 7 := by decide
  have e2 : ("\n  </div>" : String).length = 9 := by decide
  have e3 : ("\"></div>" : String).length = 8 := by decide
  omega

theorem inlineTextSpan_html_len (child : NodeData) (st : ConvState) :
    (inlineTextSpan child st).1.length ≠ 0 := by
  unfold inlineTextSpan
  simp only [String.length_append]
  have e1 : ("<span class=\"" : String).length = 13 := by decide
  omega

/-- The shape-branch class name shorthand used in the C6 statements. -/
def nodeClass (d : NodeData) : String :=
  sanitize_class_name (d.name.getD "unnamed") (d.id.getD "no-id")

/-- C6 (amended): a visible childless RECTANGLE/ELLIPSE/FRAME/GROUP/
COMPONENT/INSTANCE node with bounding height < 50 and width < 400
collapses to a single empty `<div>` with a single style rule and no
recursion; any such node with children, or with height at least 50, or
width at least 400, is not collapsed — but a node with children takes
the general recursive path only when no text-child heuristic applies; a
childless non-collapsed node does take the general path, emitting the
wrapper div with empty body. -/
theorem claim6_leaf_collapse :
    (∀ (d : NodeData) (depth : Nat) (ir phl : Bool) (st : ConvState),
      (["RECTANGLE", "ELLIPSE", "FRAME", "GROUP", "COMPONENT",
        "INSTANCE"].contains d.ntype) = true →
      d.visible = true →
      (d.bbox.getD {}).height.getD 0 < 50 →
      (d.bbox.getD {}).width.getD 0 < 400 →
      (traverse_node (.mk d []) depth ir phl st).html =
        "<div class=\"" ++ nodeClass d ++ "\"></div>" ∧
      (traverse_node (.mk d []) depth ir phl st).rules.length = 1) ∧
    (∀ (d : NodeData) (cs : List Node) (depth : Nat) (ir phl : Bool)
        (st : ConvState),
      (["RECTANGLE", "ELLIPSE", "FRAME", "GROUP", "COMPONENT",
        "INSTANCE"].contains d.ntype) = true →
      d.visible = true →
      (cs ≠ [] ∨ ¬ (d.bbox.getD {}).height.getD 0 < 50 ∨
        ¬ (d.bbox.getD {}).width.getD 0 < 400) →
      (traverse_node (.mk d cs) depth ir phl st).html ≠
        "<div class=\"" ++ nodeClass d ++ "\"></div>") ∧
    (∀ (d : NodeData) (depth : Nat) (ir phl : Bool) (st : ConvState),
      (["RECTANGLE", "ELLIPSE", "FRAME", "GROUP", "COMPONENT",
        "INSTANCE"].contains d.ntype) = true →
      d.visible = true →
      ¬ (d.bbox.getD {}).height.getD 0 < 50 →
      (traverse_node (.mk d []) depth ir phl st).html =
        "<div class=\"" ++ nodeClass d ++ "\">\n    \n  </div>") := by
  refine ⟨?_, ?_, ?_⟩
  · intro d depth ir phl st hcont hv hh hw
    have hne : d.ntype ≠ "TEXT" := by
      intro h
      rw [h] at hcont
      simp at hcont
    have hcont' : d.ntype = "RECTANGLE" ∨ d.ntype = "ELLIPSE" ∨
        d.ntype = "FRAME" ∨ d.ntype = "GROUP" ∨ d.ntype = "COMPONENT" ∨
        d.ntype = "INSTANCE" := by simpa using hcont
    constructor <;> simp [traverse_node, hv, hne, hcont', hh, hw, nodeClass]
  · intro d cs depth ir phl st hcont hv hnc
    have hne : d.ntype ≠ "TEXT" := by
      intro h
      rw [h] at hcont
      simp at hcont
    have hcont' : d.ntype = "RECTANGLE" ∨ d.ntype = "ELLIPSE" ∨
        d.ntype = "FRAME" ∨ d.ntype = "GROUP" ∨ d.ntype = "COMPONENT" ∨
        d.ntype = "INSTANCE" := by simpa using hcont
    simp [traverse_node, hv, hne, hcont']
    split
    · rename_i hsm
      rcases hnc with h | h | h <;> simp_all
    · split
      · exact div_wrap_ne _ _ (inlineTextSpan_html_len _ _)
      · exact div_wrap2_ne _ _
  · intro d depth ir phl st hcont hv hh
    have hne : d.ntype ≠ "TEXT" := by
      intro h
      rw [h] at hcont
      simp at hcont
    have hcont' : d.ntype = "RECTANGLE" ∨ d.ntype = "ELLIPSE" ∨
        d.ntype = "FRAME" ∨ d.ntype = "GROUP" ∨ d.ntype = "COMPONENT" ∨
        d.ntype = "INSTANCE" := by simpa using hcont
    simp [traverse_node, hv, hne, hcont', hh, traverseChildren, nodeClass]
    rw [String.append_assoc]
    congr 1

/-- The TEXT child of the C6 counterexample node. -/
def c6Text : Node :=
  .mk { ntype := "TEXT", name := some "label", id := some "4:2",
        characters := some "Hi" } []

/-- The C6 counterexample node: a FRAME of bounding height exactly 50
with one TEXT child and no stroke — the single-text-child button
heuristic applies to it. -/
def c6Button : Node :=
  .mk { ntype := "FRAME", name := some "card", id := some "4:1",
        bbox := some ⟨some 0, some 0, some 100, some 50⟩ } [c6Text]

/-- C6 counterexample: a node with height 50 and a child present is
indeed not collapsed, but it does not take the general recursive path:
the button heuristic inlines the TEXT child as a `<span>`, so the
emitted fragment differs from the general path's wrapper around the
recursively traversed child. -/
theorem claim6_counterexample :
    (traverse_node c6Button 0 false false {}).html =
      "<div class=\"card-41\"><span class=\"label-42\">Hi</span></div>" ∧
    (traverse_node c6Button 0 false false {}).html ≠
      "<div class=\"card-41\">\n    " ++
        (traverse_node c6Text 1 false false {}).html ++ "\n  </div>" := by
  constructor
  · with_unfolding_all rfl
  · exact of_decide_eq_true (by with_unfolding_all rfl)

/-- Attributes of a childless 10×10 rectangle (collapsed) and of a
childless 10-wide, 50-tall rectangle (not collapsed). -/
def c6Small : NodeData :=
  { ntype := "RECTANGLE", name := some "dot", id := some "5:1",
    bbox := some ⟨some 0, some 0, some 10, some 10⟩ }

def c6Tall : NodeData :=
  { ntype := "RECTANGLE", name := some "bar", id := some "5:2",
    bbox := some ⟨some 0, some 0, some 10, some 50⟩ }

/-- Witness for C6: the collapse conjunct at a childless 10×10
rectangle and the childless general-path conjunct at height exactly
50. -/
theorem claim6_witness :
    (traverse_node (.mk c6Small []) 0 false false {}).html =
      "<div class=\"" ++ nodeClass c6Small ++ "\"></div>" ∧
    (traverse_node (.mk c6Tall []) 0 false false {}).html =
      "<div class=\"" ++ nodeClass c6Tall ++ "\">\n    \n  </div>" := by
  constructor
  · exact (claim6_leaf_collapse.1 c6Small 0 false false {} rfl rfl
      (by norm_num [c6Small]) (by norm_num [c6Small])).1
  · exact claim6_leaf_collapse.2.2 c6Tall 0 false false {} rfl rfl
      (by norm_num [c6Tall])

/-! ## Claim C5: the sanitizer -/

/-- The image of the allowed character class under lowercasing:
lowercase letters, digits, underscore and dash. -/
def isAllowedLower (c : Char) : Bool :=
  (97 ≤ c.toNat && c.toNat ≤ 122) || (48 ≤ c.toNat && c.toNat ≤ 57) ||
  c = '_' || c = '-'

theorem char_toNat_ofNat (n : Nat) (h : n ≤ 122) :
    (Char.ofNat n).toNat = n := by
  have hv : n.isValidChar := Or.inl (by omega)
  simp [Char.ofNat, hv, Char.ofNatAux, Char.toNat, UInt32.toNat,
    BitVec.toNat_ofNatLt]

theorem mem_subDisallowed (cs : List Char) (c : Char)
    (hc : c ∈ subDisallowed cs) : isAllowed c = true := by
  simp only [subDisallowed, List.mem_map] at hc
  obtain ⟨a, _, ha⟩ := hc
  by_cases h : isAllowed a = true
  · rw [← ha, if_pos h]
    exact h
  · rw [← ha, if_neg h]
    decide

theorem mem_collapseDashes : ∀ (l : List Char), ∀ c ∈ collapseDashes l,
    c ∈ l
  | [] => by simp [collapseDashes]
  | [a] => by simp [collapseDashes]
  | a :: b :: rest => by
    intro c hc
    rw [collapseDashes] at hc
    split at hc
    · exact List.mem_cons_of_mem _ (mem_collapseDashes (b :: rest) c hc)
    · rcases List.mem_cons.mp hc with h | h
      · exact h ▸ List.mem_cons_self _ _
      · exact List.mem_cons_of_mem _ (mem_collapseDashes (b :: rest) c h)

theorem mem_stripTrailingDashes : ∀ (l : List Char),
    ∀ c ∈ stripTrailingDashes l, c ∈ l
  | [] => by simp [stripTrailingDashes]
  | a :: rest => by
    intro c hc
    rw [stripTrailingDashes] at hc
    by_cases hz : stripTrailingDashes rest = []
    · rw [if_pos hz] at hc
      by_cases hadash : a = '-'
      · rw [if_pos hadash] at hc
        simp at hc
      · rw [if_neg hadash] at hc
        simp at hc
        exact hc ▸ List.mem_cons_self _ _
    · rw [if_neg hz] at hc
      rcases List.mem_cons.mp hc with h | h
      · exact h ▸ List.mem_cons_self _ _
      · exact List.mem_cons_of_mem _ (mem_stripTrailingDashes rest c h)

theorem mem_dropWhile (p : Char → Bool) : ∀ (l : List Char),
    ∀ c ∈ l.dropWhile p, c ∈ l
  | [] => by simp
  | a :: rest => by
    intro c hc
    by_cases hp : p a
    · rw [List.dropWhile_cons_of_pos hp] at hc
      exact List.mem_cons_of_mem _ (mem_dropWhile p rest c hc)
    · rw [List.dropWhile_cons_of_neg hp] at hc
      exact hc

theorem mem_stripDashes (l : List Char) (c : Char)
    (hc : c ∈ stripDashes l) : c ∈ l :=
  mem_dropWhile _ l c
    (mem_stripTrailingDashes (l.dropWhile (fun x => x = '-')) c hc)

theorem dropWhile_head_not (p : Char → Bool) : ∀ (l : List Char)
    (c : Char) (cs : List Char), l.dropWhile p = c :: cs → p c = false
  | [] => by simp
  | a :: rest => by
    intro c cs h
    by_cases hp : p a
    · rw [List.dropWhile_cons_of_pos hp] at h
      exact dropWhile_head_not p rest c cs h
    · rw [List.dropWhile_cons_of_neg hp] at h
      injection h with h1 _
      rw [← h1]
      simpa using hp

theorem stripTrailingDashes_head (a : Char) (l : List Char) :
    stripTrailingDashes (a :: l) = [] ∨
    ∃ r, stripTrailingDashes (a :: l) = a :: r := by
  rw [stripTrailingDashes]
  by_cases hz : stripTrailingDashes l = []
  · rw [if_pos hz]
    by_cases hadash : a = '-'
    · exact Or.inl (by rw [if_pos hadash])
    · exact Or.inr ⟨[], by rw [if_neg hadash]⟩
  · rw [if_neg hz]
    exact Or.inr ⟨_, rfl⟩

theorem stripDashes_head (l : List Char) (c : Char) (cs : List Char)
    (h : stripDashes l = c :: cs) : c ≠ '-' ∧ c ∈ l := by
  unfold stripDashes at h
  rcases hd : l.dropWhile (fun x => x = '-') with _ | ⟨a, rest⟩
  · rw [hd] at h
    simp [stripTrailingDashes] at h
  · rw [hd] at h
    have ha : (fun x => decide (x = '-')) a = false :=
      dropWhile_head_not _ l a rest hd
    have ha' : a ≠ '-' := by simpa using ha
    rcases stripTrailingDashes_head a rest with h0 | ⟨r, hr⟩
    · rw [h0] at h
      cases h
    · rw [hr] at h
      injection h with h1 _
      subst h1
      exact ⟨ha', mem_dropWhile _ l a (hd ▸ List.mem_cons_self a rest)⟩

theorem toLower_allowed (c : Char) (h : isAllowed c = true) :
    isAllowedLower (Char.toLower c) = true := by
  by_cases hu : c.toNat ≥ 65 ∧ c.toNat ≤ 90
  · rw [Char.toLower, if_pos hu]
    have hn := char_toNat_ofNat (c.toNat + 32) (by omega)
    simp only [isAllowedLower, Bool.or_eq_true, Bool.and_eq_true,
      decide_eq_true_eq, hn]
    refine Or.inl (Or.inl (Or.inl ?_))
    omega
  · rw [Char.toLower, if_neg hu]
    simp only [isAllowed, Bool.or_eq_true, Bool.and_eq_true,
      decide_eq_true_eq] at h
    simp only [isAllowedLower, Bool.or_eq_true, Bool.and_eq_true,
      decide_eq_true_eq]
    rcases h with (((h1 | h2) | h3) | h4) | h5
    · exact Or.inl (Or.inl (Or.inl h1))
    · exact absurd ⟨h2.1, h2.2⟩ hu
    · exact Or.inl (Or.inl (Or.inr h3))
    · exact Or.inl (Or.inr h4)
    · exact Or.inr h5

/-- Modelled from the claim's words for C5 only: whether a string
matches `^[a-z]` or `^n-`. -/
def matchesClaimedStart (s : String) : Bool :=
  match s.data with
  | [] => false
  | c :: rest =>
    (97 ≤ c.toNat && c.toNat ≤ 122) || (c = 'n' && rest.headD ' ' = '-')

/-- C5 counterexample: a name of only symbols collapses to the empty
string, and with a non-empty node id the result is "-" followed by the
sanitized id — here `sanitize_class_name "---" "x" = "-x"`, which starts
with a dash and matches neither `^[a-z]` nor `^n-`. -/
theorem claim5_counterexample :
    sanitize_class_name "---" "x" = "-x" ∧
    matchesClaimedStart "-x" = false := by
  constructor <;> decide

/-- C5 (amended): `sanitize_class_name` is total and never returns the
empty string; the first character of the result is a lowercase ASCII
letter (which subsumes both `^[a-z]` and `^n-`) except when the
sanitized name collapses to empty and a non-empty node id is supplied,
in which case the result starts with a dash. -/
theorem claim5_sanitize_total (name node_id : String) :
    sanitize_class_name name node_id ≠ "" ∧
    (∀ c cs, (sanitize_class_name name node_id).data = c :: cs →
      (97 ≤ c.toNat ∧ c.toNat ≤ 122) ∨ (c = '-' ∧ node_id ≠ "")) := by
  simp only [sanitize_class_name]
  generalize hg : stripDashes ((collapseDashes (subDisallowed
    (if name = "" then "unnamed" else name).data)).map Char.toLower) = n3
  have hchars : ∀ c ∈ n3, isAllowedLower c = true := by
    intro c hc
    rw [← hg] at hc
    have h1 := mem_stripDashes _ _ hc
    simp only [List.mem_map] at h1
    obtain ⟨a, ha, rfl⟩ := h1
    exact toLower_allowed a (mem_subDisallowed _ _ (mem_collapseDashes _ _ ha))
  have hmkne : ∀ (x : Char) (xs : List Char), String.mk (x :: xs) ≠ "" := by
    intro x xs h
    have := congrArg String.data h
    simp at this
  rcases n3 with _ | ⟨c0, cs0⟩
  · by_cases hid : node_id = ""
    · subst hid
      simp
    · simp [hid]
      exact hmkne _ _
  · have hc0 : isAllowedLower c0 = true := hchars c0 (List.mem_cons_self _ _)
    have hc0d : c0 ≠ '-' := (stripDashes_head _ _ _ hg).1
    by_cases halpha : pyIsAlpha c0 = true
    · have hrange : 97 ≤ c0.toNat ∧ c0.toNat ≤ 122 := by
        simp only [isAllowedLower, Bool.or_eq_true, Bool.and_eq_true,
          decide_eq_true_eq] at hc0
        simp only [pyIsAlpha, Bool.or_eq_true, Bool.and_eq_true,
          decide_eq_true_eq] at halpha
        rcases hc0 with ((h1 | h2) | h3) | h4
        · exact h1
        · rcases halpha with h | h <;> omega
        · have h95 : c0.toNat = 95 := by rw [h3]; rfl
          rcases halpha with h | h <;> omega
        · exact absurd h4 hc0d
      by_cases hid : node_id = ""
      · subst hid
        simp [halpha]
        refine ⟨hmkne _ _, ?_⟩
        exact hrange
      · simp [halpha, hid]
        refine ⟨hmkne _ _, ?_⟩
        exact Or.inl hrange
    · by_cases hid : node_id = ""
      · subst hid
        simp [halpha]
        exact hmkne _ _
      · simp [halpha, hid]
        exact hmkne _ _

/-- Witness for C5: the amended theorem applied at name "abc" with an
empty node id. -/
theorem claim5_witness :
    sanitize_class_name "abc" "" ≠ "" ∧
    ((97 ≤ 'a'.toNat ∧ 'a'.toNat ≤ 122) ∨
      ('a' = '-' ∧ ("" : String) ≠ "")) := by
  refine ⟨(claim5_sanitize_total "abc" "").1, ?_⟩
  exact (claim5_sanitize_total "abc" "").2 'a' ['b', 'c'] (by decide)

/-! ## Claim C2: the `root_frame` invariant -/

mutual
/-- No CANVAS node occurs in this subtree (its root included); real
Figma documents satisfy this for everything below the canvases. -/
def noCanvas : Node → Bool
  | .mk d cs => d.ntype ≠ "CANVAS" && noCanvasList cs

def noCanvasList : List Node → Bool
  | [] => true
  | c :: rest => noCanvas c && noCanvasList rest
end

/-- The `root_frame`-related part of the converter state: the recorded
frame and the ghost assignment counter. -/
def rootPart (st : ConvState) : Option BBox × Nat :=
  (st.root_frame, st.root_sets)

theorem node_to_css_false_state (d : NodeData) (cls : String) (phl : Bool)
    (st : ConvState) : (node_to_css d cls false phl st).2 = st := rfl

theorem node_to_css_true_state (d : NodeData) (cls : String) (phl : Bool)
    (st : ConvState) :
    (node_to_css d cls true phl st).2 =
      { st with root_frame := some (d.bbox.getD {}),
                root_sets := st.root_sets + 1 } := rfl

theorem inlineTextSpan_rootPart (child : NodeData) (st : ConvState) :
    rootPart (inlineTextSpan child st).2.2.2 = rootPart st := by
  unfold inlineTextSpan
  rfl

theorem noCanvasList_mem {cs : List Node} (h : noCanvasList cs = true)
    {c : Node} (hc : c ∈ cs) : noCanvas c = true := by
  induction cs with
  | nil => cases hc
  | cons a rest ih =>
    rw [noCanvasList] at h
    simp only [Bool.and_eq_true] at h
    rcases List.mem_cons.mp hc with h1 | h1
    · subst h1
      exact h.1
    · exact ih h.2 h1

mutual

theorem traverse_preserves_root : ∀ (n : Node) (depth : Nat) (phl : Bool)
    (st : ConvState), noCanvas n = true →
    rootPart (traverse_node n depth false phl st).state = rootPart st
  | .mk d cs, depth, phl, st => by
    intro hnc
    rw [noCanvas] at hnc
    simp only [Bool.and_eq_true, decide_eq_true_eq] at hnc
    obtain ⟨hcanv, hcs⟩ := hnc
    by_cases hv : d.visible = false
    · simp [traverse_node, hv]
    · have hv' : d.visible = true := by
        revert hv
        cases d.visible <;> simp
      by_cases hT : d.ntype = "TEXT"
      · simp [traverse_node, hT, hv', node_to_css_false_state, rootPart]
      · by_cases hS : (["RECTANGLE", "ELLIPSE", "FRAME", "GROUP",
            "COMPONENT", "INSTANCE"].contains d.ntype) = true
        · have hS' : d.ntype = "RECTANGLE" ∨ d.ntype = "ELLIPSE" ∨
              d.ntype = "FRAME" ∨ d.ntype = "GROUP" ∨
              d.ntype = "COMPONENT" ∨ d.ntype = "INSTANCE" := by
            simpa using hS
          simp [traverse_node, hv', hT, hS', node_to_css_false_state]
          split
          · split <;> simp [rootPart]
          · split
            · rw [inlineTextSpan_rootPart]
              split <;> simp [rootPart]
            · rw [traverseChildren_preserves_root cs (depth + 1) _ _ [] []
                _ hcs]
              split <;> simp [rootPart]
        · have hSn : ¬ (d.ntype = "RECTANGLE" ∨ d.ntype = "ELLIPSE" ∨
              d.ntype = "FRAME" ∨ d.ntype = "GROUP" ∨
              d.ntype = "COMPONENT" ∨ d.ntype = "INSTANCE") := by
            simpa using hS
          by_cases hVec : d.ntype = "VECTOR"
          · simp [traverse_node, hT, hv', hSn, hVec,
              node_to_css_false_state, rootPart]
          · by_cases hD : d.ntype = "DOCUMENT"
            · simp [traverse_node, hT, hv', hSn, hVec, hcanv, hD]
              rw [docLoop_preserves_root cs depth [] [] st hcs]
            · simp [traverse_node, hT, hv', hSn, hVec, hcanv, hD, rootPart]

theorem docLoop_preserves_root : ∀ (cs : List Node) (depth : Nat)
    (html : List String) (rules : List (String × List (String × CssVal)))
    (st : ConvState), noCanvasList cs = true →
    rootPart (docLoop cs depth html rules st).2.2 = rootPart st
  | [], _, _, _, st => by
    intro h
    rfl
  | c :: rest, depth, html, rules, st => by
    intro h
    rw [noCanvasList] at h
    simp only [Bool.and_eq_true] at h
    rw [docLoop]
    rw [docLoop_preserves_root rest depth _ _ _ h.2]
    exact traverse_preserves_root c depth false st h.1

theorem traverseChildren_preserves_root : ∀ (cs : List Node) (depth : Nat)
    (sp chl : Bool) (html : List String)
    (rules : List (String × List (String × CssVal))) (st : ConvState),
    noCanvasList cs = true →
    rootPart (traverseChildren cs depth sp chl html rules st).2.2 =
      rootPart st
  | [], _, _, _, _, _, st => by
    intro h
    rfl
  | c :: rest, depth, sp, chl, html, rules, st => by
    intro h
    rw [noCanvasList] at h
    simp only [Bool.and_eq_true] at h
    rw [traverseChildren]
    split
    · rw [traverseChildren_preserves_root rest depth sp chl _ _ _ h.2]
      exact inlineTextSpan_rootPart _ _
    · rw [traverseChildren_preserves_root rest depth sp chl _ _ _ h.2]
      exact traverse_preserves_root c depth chl st h.1

end

theorem traverse_root_frame (d : NodeData) (cs : List Node)
    (hcs : noCanvasList cs = true) (hF : d.ntype = "FRAME")
    (hv : d.visible = true) (depth : Nat) (phl : Bool) (st : ConvState) :
    rootPart (traverse_node (.mk d cs) depth true phl st).state =
      (some (d.bbox.getD {}), st.root_sets + 1) := by
  have hT : d.ntype ≠ "TEXT" := by rw [hF]; decide
  have hS' : d.ntype = "RECTANGLE" ∨ d.ntype = "ELLIPSE" ∨
      d.ntype = "FRAME" ∨ d.ntype = "GROUP" ∨ d.ntype = "COMPONENT" ∨
      d.ntype = "INSTANCE" := Or.inr (Or.inr (Or.inl hF))
  simp [traverse_node, hv, hT, hS', node_to_css_true_state]
  split
  · split <;> simp [rootPart]
  · split
    · rw [inlineTextSpan_rootPart]
      split <;> simp [rootPart]
    · rw [traverseChildren_preserves_root cs (depth + 1) _ _ [] [] _ hcs]
      split <;> simp [rootPart]

theorem canvasLoop_root : ∀ (cs : List Node) (depth : Nat) (st : ConvState),
    noCanvasList cs = true →
    (∀ f, cs.find? (fun c => c.data.ntype = "FRAME" && c.data.visible) =
        some f →
      rootPart (canvasLoop cs depth st).state =
        (some (f.data.bbox.getD {}), st.root_sets + 1)) ∧
    (cs.find? (fun c => c.data.ntype = "FRAME" && c.data.visible) = none →
      (canvasLoop cs depth st).state = st)
  | [], depth, st => by
    intro _
    constructor
    · intro f hf
      simp at hf
    · intro _
      rfl
  | c :: rest, depth, st => by
    intro h
    rw [noCanvasList] at h
    simp only [Bool.and_eq_true] at h
    rw [canvasLoop]
    by_cases hc : (c.data.ntype = "FRAME" && c.data.visible) = true
    · rw [if_pos hc]
      constructor
      · intro f hf
        rw [List.find?_cons] at hf
        rw [hc] at hf
        injection hf with hf
        subst hf
        obtain ⟨d', cs'⟩ := c
        have hnc := h.1
        rw [noCanvas] at hnc
        simp only [Bool.and_eq_true, decide_eq_true_eq] at hnc
        simp only [Bool.and_eq_true, decide_eq_true_eq, Node.data] at hc
        exact traverse_root_frame d' cs' hnc.2 hc.1 hc.2 depth false st
      · intro hnone
        rw [List.find?_cons] at hnone
        rw [hc] at hnone
        cases hnone
    · rw [if_neg hc]
      cases hb : (decide (c.data.ntype = "FRAME") && c.data.visible) with
      | true => exact absurd hb hc
      | false =>
        rw [List.find?_cons]
        rw [hb]
        exact canvasLoop_root rest depth st h.2

/-- Whether a CANVAS child triggers a `root_frame` assignment: it is
visible and has a visible FRAME child. -/
def canvasAssigns (c : Node) : Bool :=
  c.data.visible &&
    c.children.any (fun f => f.data.ntype = "FRAME" && f.data.visible)

theorem traverse_canvas_eq (d : NodeData) (cs : List Node)
    (hC : d.ntype = "CANVAS") (hv : d.visible = true) (depth : Nat)
    (phl : Bool) (st : ConvState) :
    traverse_node (.mk d cs) depth false phl st = canvasLoop cs depth st := by
  have hT : d.ntype ≠ "TEXT" := by rw [hC]; decide
  have hSn : ¬ (d.ntype = "RECTANGLE" ∨ d.ntype = "ELLIPSE" ∨
      d.ntype = "FRAME" ∨ d.ntype = "GROUP" ∨ d.ntype = "COMPONENT" ∨
      d.ntype = "INSTANCE") := by rw [hC]; decide
  have hVec : d.ntype ≠ "VECTOR" := by rw [hC]; decide
  simp [traverse_node, hv, hT, hSn, hVec, hC]

theorem docLoop_root_count : ∀ (cs : List Node) (depth : Nat)
    (html : List String) (rules : List (String × List (String × CssVal)))
    (st : ConvState),
    (∀ c ∈ cs, c.data.ntype = "CANVAS" ∧ noCanvasList c.children = true) →
    (docLoop cs depth html rules st).2.2.root_sets =
      st.root_sets + (cs.filter canvasAssigns).length
  | [], _, _, _, _ => by
    intro _
    rfl
  | c :: rest, depth, html, rules, st => by
    intro h
    obtain ⟨d', cs'⟩ := c
    have hc := h _ (List.mem_cons_self _ _)
    have hrest : ∀ x ∈ rest, x.data.ntype = "CANVAS" ∧
        noCanvasList x.children = true :=
      fun x hx => h x (List.mem_cons_of_mem _ hx)
    simp only [Node.data, Node.children] at hc
    rw [docLoop]
    by_cases hvis : d'.visible = false
    · have htrav : traverse_node (.mk d' cs') depth false false st =
          ⟨"", [], st⟩ := by simp [traverse_node, hvis]
      rw [htrav]
      rw [docLoop_root_count rest depth _ _ _ hrest]
      have hass : canvasAssigns (.mk d' cs') = false := by
        simp [canvasAssigns, Node.data, hvis]
      rw [List.filter_cons, if_neg (by simp [hass])]
    · have hv' : d'.visible = true := by
        revert hvis
        cases d'.visible <;> simp
      have htrav := traverse_canvas_eq d' cs' hc.1 hv' depth false st
      rw [htrav]
      rcases hfind : cs'.find?
          (fun c => c.data.ntype = "FRAME" && c.data.visible) with _ | f
      · have hstate := (canvasLoop_root cs' depth st hc.2).2 hfind
        rw [hstate]
        rw [docLoop_root_count rest depth _ _ _ hrest]
        have hass : canvasAssigns (.mk d' cs') = false := by
          simp only [canvasAssigns, Node.data, Node.children, hv',
            Bool.true_and]
          rw [List.any_eq_false]
          intro x hx
          rw [List.find?_eq_none] at hfind
          simpa using hfind x hx
        rw [List.filter_cons, if_neg (by simp [hass])]
      · have hstate := (canvasLoop_root cs' depth st hc.2).1 f hfind
        have hsets : (canvasLoop cs' depth st).state.root_sets =
            st.root_sets + 1 := congrArg Prod.snd hstate
        rw [docLoop_root_count rest depth _ _ _ hrest, hsets]
        have hass : canvasAssigns (.mk d' cs') = true := by
          simp only [canvasAssigns, Node.data, Node.children, hv',
            Bool.true_and]
          have hpf := List.find?_some hfind
          have hmem := List.mem_of_find?_eq_some hfind
          exact List.any_eq_true.mpr ⟨f, hmem, hpf⟩
        rw [List.filter_cons, if_pos (by simp [hass])]
        simp only [List.length_cons]
        omega

/-- The two canvases of the C2 counterexample document, each holding
one visible FRAME. -/
def c2Frame1 : Node :=
  .mk { ntype := "FRAME", name := some "f1", id := some "1:1",
        bbox := some ⟨some 0, some 0, some 100, some 100⟩ } []

def c2Frame2 : Node :=
  .mk { ntype := "FRAME", name := some "f2", id := some "2:1",
        bbox := some ⟨some 500, some 500, some 200, some 200⟩ } []

def c2Doc : Node :=
  .mk { ntype := "DOCUMENT", name := some "doc", id := some "0:0" }
    [.mk { ntype := "CANVAS", name := some "p1", id := some "0:1" }
       [c2Frame1],
     .mk { ntype := "CANVAS", name := some "p2", id := some "0:2" }
       [c2Frame2]]

/-- C2 counterexample: in a document whose DOCUMENT node has two CANVAS
children, each containing a visible FRAME, the `self.root_frame = bounds`
statement of `node_to_css` (counted by the ghost field `root_sets`)
executes twice, and the final `root_frame` is the second frame's
bounding box — not the first frame processed with `is_root = true`. -/
theorem claim2_counterexample :
    (traverse_node c2Doc 0 false false {}).state.root_sets = 2 ∧
    (traverse_node c2Doc 0 false false {}).state.root_frame =
      some ⟨some 500, some 500, some 200, some 200⟩ ∧
    (some (⟨some 500, some 500, some 200, some 200⟩ : BBox) ≠
      some (⟨some 0, some 0, some 100, some 100⟩ : BBox)) := by
  refine ⟨?_, ?_, ?_⟩
  · with_unfolding_all rfl
  · with_unfolding_all rfl
  · exact of_decide_eq_true (by with_unfolding_all rfl)

/-- C2 (amended): `root_frame` is assigned once per CANVAS child of the
DOCUMENT that is visible and contains a visible FRAME — by the first
such FRAME of that canvas, whose bounding box it records — so for a
document with a single such CANVAS it is assigned at most once, but a
document with several such canvases assigns it once per canvas, later
assignments overwriting earlier ones. Stated for documents whose
canvases contain no nested CANVAS nodes (true of all real documents). -/
theorem claim2_root_assignments :
    (∀ (dd : NodeData) (cs : List Node) (depth : Nat) (st : ConvState),
      dd.ntype = "DOCUMENT" → dd.visible = true →
      (∀ c ∈ cs, c.data.ntype = "CANVAS" ∧
        noCanvasList c.children = true) →
      (traverse_node (.mk dd cs) depth false false st).state.root_sets =
        st.root_sets + (cs.filter canvasAssigns).length) ∧
    (∀ (cd : NodeData) (ccs : List Node) (depth : Nat) (phl : Bool)
        (st : ConvState) (f : Node),
      cd.ntype = "CANVAS" → cd.visible = true →
      noCanvasList ccs = true →
      ccs.find? (fun c => c.data.ntype = "FRAME" && c.data.visible) =
        some f →
      rootPart (traverse_node (.mk cd ccs) depth false phl st).state =
        (some (f.data.bbox.getD {}), st.root_sets + 1)) := by
  constructor
  · intro dd cs depth st hD hv hcs
    have hT : dd.ntype ≠ "TEXT" := by rw [hD]; decide
    have hSn : ¬ (dd.ntype = "RECTANGLE" ∨ dd.ntype = "ELLIPSE" ∨
        dd.ntype = "FRAME" ∨ dd.ntype = "GROUP" ∨ dd.ntype = "COMPONENT" ∨
        dd.ntype = "INSTANCE") := by rw [hD]; decide
    have hVec : dd.ntype ≠ "VECTOR" := by rw [hD]; decide
    have hCanv : dd.ntype ≠ "CANVAS" := by rw [hD]; decide
    simp [traverse_node, hv, hT, hSn, hVec, hCanv, hD]
    rw [docLoop_root_count cs depth [] [] st hcs]
  · intro cd ccs depth phl st f hC hv hnc hfind
    rw [traverse_canvas_eq cd ccs hC hv depth phl st]
    exact (canvasLoop_root ccs depth st hnc).1 f hfind

/-- Witness for C2: the amended theorem applied to the two-canvas
counterexample document (two assignments) and to its second canvas
(one assignment recording frame f2's box). -/
theorem claim2_witness :
    (traverse_node c2Doc 0 false false {}).state.root_sets =
      (0 : Nat) + ((c2Doc.children.filter canvasAssigns).length) ∧
    rootPart (traverse_node
        (.mk { ntype := "CANVAS", name := some "p2", id := some "0:2" }
          [c2Frame2]) 0 false false {}).state =
      (some (c2Frame2.data.bbox.getD {}), (0 : Nat) + 1) := by
  constructor
  · exact claim2_root_assignments.1
      { ntype := "DOCUMENT", name := some "doc", id := some "0:0" }
      c2Doc.children 0 {} rfl rfl (by decide)
  · exact claim2_root_assignments.2
      { ntype := "CANVAS", name := some "p2", id := some "0:2" }
      [c2Frame2] 0 false {} c2Frame2 rfl rfl (by decide)
      (by with_unfolding_all rfl)
